import Mathlib

/-!
# Verification of the ENGAPP assessment core

Shallow embedding of the scoring / assessment components of the ENGAPP
backend (`backend-ai/app`), together with proofs of the behavioural
properties stated in the specification.

Conventions used throughout:

* Python numbers (ints and floats used for scores, weights, thresholds)
  are modelled as rationals `ℚ`; Python's `round(x, 1)` is modelled as
  rounding `10·x` to the nearest integer and dividing by 10.
* Python dictionaries with heterogeneous values are modelled as
  association lists `List (String × PyVal)`; `d.get(k, default)` is the
  first-match lookup with the default on a missing key.
* Fallible code paths (a `.get` whose value has the wrong runtime type
  would raise `TypeError` in Python) are modelled with `Option`.
* External collaborators (the Azure recognizer, the LLM provider, the
  `lexical_diversity` library, word-list resource files) are inputs: the
  embedded functions take their outputs as explicit arguments.
-/

set_option autoImplicit false

namespace EngApp

/-- A Python value, as far as the assessment core inspects one:
numbers, strings, lists, string-keyed dictionaries and `None`. -/
inductive PyVal where
  | num (q : ℚ)
  | str (s : String)
  | list (l : List PyVal)
  | dict (d : List (String × PyVal))
  | none

/-- A Python dict with string keys, as an association list (keys are
unique in every dict the code builds; lookup takes the first match). -/
abbrev PyDict := List (String × PyVal)

/-- `d.get(k)` / `d[k]`: first value stored under key `k`, if any. -/
def pyGet (d : PyDict) (k : String) : Option PyVal :=
  (d.find? (fun e => e.1 == k)).map (·.2)

/-- `d[k] = v`: replace the value under `k` in place, or append the new
key at the end (Python dict insertion-order semantics). -/
def pySet (d : PyDict) (k : String) (v : PyVal) : PyDict :=
  match d with
  | [] => [(k, v)]
  | (k', v') :: rest => if k' == k then (k, v) :: rest else (k', v') :: pySet rest k v

/-- Read a numeric field with a default: missing key yields the default,
a present non-numeric value is a Python `TypeError` in the arithmetic
that follows, modelled as `Option.none`. -/
def pyGetNum (d : PyDict) (k : String) (dflt : ℚ) : Option ℚ :=
  match pyGet d k with
  | Option.none => some dflt
  | some (PyVal.num q) => some q
  | some _ => Option.none

/-- Python's `round(x, 1)` on the rational idealisation of a float. -/
def pyRound1 (q : ℚ) : ℚ := (round (q * 10) : ℚ) / 10

/-- `min(max(x, 0), 100)` — clamp a score into `[0, 100]`. -/
def clampScore (q : ℚ) : ℚ := min (max q 0) 100

/-- Python's `needle in hay` on strings (substring containment; the
empty needle is contained in everything). -/
def pyInStr (needle hay : String) : Bool :=
  go hay.data
where
  go : List Char → Bool
  | [] => needle.data.isPrefixOf []
  | c :: t => needle.data.isPrefixOf (c :: t) || go t

/-- Python's `s.upper()` (ASCII case mapping, which is all the embedded
code applies it to). -/
def pyUpper (s : String) : String := ⟨s.data.map Char.toUpper⟩

/-- Python's `s.lower()` (ASCII case mapping). -/
def pyLower (s : String) : String := ⟨s.data.map Char.toLower⟩

/-- Split a string at the characters satisfying `sep`, dropping empty
pieces. -/
def splitDrop (sep : Char → Bool) (s : String) : List String :=
  go s.data []
where
  go : List Char → List Char → List String
  | [], cur => if cur = [] then [] else [⟨cur.reverse⟩]
  | c :: rest, cur =>
    if sep c then (if cur = [] then go rest [] else ⟨cur.reverse⟩ :: go rest [])
    else go rest (c :: cur)

/-- Python's `s.split()`: split on whitespace runs, dropping empties. -/
def pySplitWs (s : String) : List String :=
  splitDrop Char.isWhitespace s

/-- Keep the first occurrence of each key, drop later duplicates
(the `seen`-set loop used for deduplication in the detector). -/
def dedupFirst {α : Type} (key : α → String) : List α → List String → List α
  | [], _ => []
  | x :: xs, seen =>
    if key x ∈ seen then dedupFirst key xs seen
    else x :: dedupFirst key xs (key x :: seen)

/-! ## Confidence calculator

`app/assessment/scoring/confidence_calculator.py`. -/

/-- Per-metric confidence record returned by
`ConfidenceCalculator._calculate_metric_confidence`. -/
structure MetricConfidence where
  level : String
  score : ℚ
  margin_of_error : ℚ
  deriving DecidableEq

/-- Base confidence from audio-quality bands
(`_calculate_metric_confidence`, first `if` ladder). -/
def baseConfidence (audio_quality : ℚ) : ℚ :=
  if audio_quality ≥ 90 then 95/100
  else if audio_quality ≥ 75 then 85/100
  else if audio_quality ≥ 60 then 70/100
  else 50/100

/-- Minimum required sample per metric type (`min_sample`).
Seconds for pronunciation/fluency, words for grammar/vocab. -/
def minSample (metric_type : String) : ℚ :=
  if metric_type = "pronunciation" then 30
  else if metric_type = "fluency" then 45
  else 50

/-- The `if sample_factor < 0.2: sample_factor *= 0.5` penalty applied
to a computed factor. -/
def shortSamplePenalty (f : ℚ) : ℚ :=
  if f < 1/5 then f * (1/2) else f

/-- `sample_factor`: `min(1.0, sample_size / min_sample)` with the
penalty applied. -/
def sampleFactor (metric_type : String) (sample_size : ℚ) : ℚ :=
  shortSamplePenalty (min 1 (sample_size / minSample metric_type))

/-- `final_confidence = base_confidence * sample_factor`. -/
def finalConfidence (metric_type : String) (audio_quality sample_size : ℚ) : ℚ :=
  baseConfidence audio_quality * sampleFactor metric_type sample_size

/-- `ConfidenceCalculator._calculate_metric_confidence`. -/
def calculateMetricConfidence (audio_quality sample_size : ℚ)
    (metric_type : String) : MetricConfidence :=
  let fc := finalConfidence metric_type audio_quality sample_size
  let margin := pyRound1 ((1 - fc) * 15)
  let level := if fc ≥ 90/100 then "HIGH" else if fc ≥ 75/100 then "MEDIUM" else "LOW"
  ⟨level, pyRound1 (fc * 100), margin⟩

/-- Result of `ConfidenceCalculator.calculate_confidence` (the
`vocabulary` and `comprehension` entries of `by_metric` alias the
grammar record in the source and are not repeated here). -/
structure ConfidenceResult where
  overall_level : String
  overall_score : ℚ
  pronunciation : MetricConfidence
  fluency : MetricConfidence
  grammar : MetricConfidence
  deriving DecidableEq

/-- `ConfidenceCalculator.calculate_confidence` on the three numeric
inputs it extracts from `assessment_data`. -/
def calculateConfidence (audio_quality duration word_count : ℚ) : ConfidenceResult :=
  let p := calculateMetricConfidence audio_quality duration "pronunciation"
  let f := calculateMetricConfidence audio_quality duration "fluency"
  let g := calculateMetricConfidence audio_quality word_count "grammar"
  let overall := p.score * (4/10) + f.score * (3/10) + g.score * (3/10)
  let level := if overall ≥ 90 then "HIGH" else if overall ≥ 75 then "MEDIUM" else "LOW"
  ⟨level, pyRound1 overall, p, f, g⟩

/-! ## Fluency recalibrator

`app/assessment/scoring/fluency_recalibrator.py`. -/

/-- `FluencyRecalibrator._adjust_prosody`: piecewise-linear compression
of the external prosody estimate. -/
def adjustProsody (azure_prosody : ℚ) : ℚ :=
  if azure_prosody ≥ 90 then 75 + (azure_prosody - 90) * (1/2)
  else if azure_prosody ≥ 70 then 60 + (azure_prosody - 70) * (3/4)
  else azure_prosody * (85/100)

/-! ## Grammar error classifier

`app/assessment/scoring/grammar_classifier.py`. -/

/-- One LLM-reported grammar error, as far as the classifier reads it:
`error.get('severity', '')` and `error.get('error_type', '')` (a missing
key is the empty string). -/
structure GError where
  severity : String
  error_type : String
  deriving DecidableEq

/-- One LLM-reported sentence-structure annotation:
`struct.get('type', '')` and `struct.get('features', [])`. -/
structure SStruct where
  type : String
  features : List String
  deriving DecidableEq

/-- The severity tiers of `GrammarErrorClassifier.ERROR_TAXONOMY`, in
dictionary (insertion) order. -/
def ERROR_TAXONOMY : List (String × List String) :=
  [("TIER_1",
    ["wrong_tense_context", "subject_verb_disagreement", "missing_auxiliary",
     "word_order_chaos", "critical_omission"]),
   ("TIER_2",
    ["article_error", "preposition_error", "plural_form_error",
     "wrong_verb_form", "punctuation_error"]),
   ("TIER_3",
    ["article_omission_casual", "uncountable_plural", "redundant_preposition",
     "colloquial_contraction", "minor_tense_slip"])]

/-- `GrammarErrorClassifier._determine_tier`. -/
def determineTier (e : GError) : String :=
  let severity := pyUpper e.severity
  if severity ∈ ERROR_TAXONOMY.map (·.1) then severity
  else
    let error_type := pyLower e.error_type
    match ERROR_TAXONOMY.find? (fun t => error_type ∈ t.2) with
    | some t => t.1
    | Option.none => "TIER_2"

/-- Penalty charged for one error of the given tier. -/
def tierPenalty (tier : String) : ℕ :=
  if tier = "TIER_1" then 10 else if tier = "TIER_2" then 5 else 2

/-- `GrammarErrorClassifier._calculate_complexity_bonus`. -/
def complexityBonus (structures : List SStruct) : ℕ :=
  let bonus := structures.foldl (fun b s =>
    let b := if pyLower s.type ∈ ["complex", "compound-complex"] then b + 3 else b
    let b := if "passive_voice" ∈ s.features then b + 2 else b
    if "conditional" ∈ s.features then b + 2 else b) 0
  min bonus 15

/-- The errors of the given tier, as grouped by `classify_errors` into
`errors_by_tier`. -/
def errorsOfTier (errors : List GError) (tier : String) : List GError :=
  errors.filter (fun e => determineTier e = tier)

/-- The values of `errors_by_tier`, concatenated in tier order (the
iteration order of the sub-score helpers). -/
def tierGrouped (errors : List GError) : List GError :=
  (ERROR_TAXONOMY.map (fun t => errorsOfTier errors t.1)).flatten

/-- `GrammarErrorClassifier._calculate_tense_score`. -/
def tenseScore (errors : List GError) : ℤ :=
  let tense_errors := ((tierGrouped errors).filter (fun e =>
    pyInStr "tense" (pyLower e.error_type) || pyInStr "verb" (pyLower e.error_type))).length
  max 0 (100 - (tense_errors : ℤ) * 15)

/-- `GrammarErrorClassifier._calculate_article_score`. -/
def articleScore (errors : List GError) : ℤ :=
  let article_errors := ((tierGrouped errors).filter (fun e =>
    pyInStr "article" (pyLower e.error_type))).length
  max 0 (100 - (article_errors : ℤ) * 10)

/-- `GrammarErrorClassifier._calculate_complexity_score`. -/
def complexityScore (structures : List SStruct) : ℚ :=
  if structures = [] then 50
  else
    let types := structures.map (fun s => pyLower s.type)
    let variety := types.dedup.length
    let score : ℚ := 40 + (variety : ℚ) * 15
    let score := if "complex" ∈ types ∨ "compound-complex" ∈ types then score + 10 else score
    min 100 score

/-- `total_penalty`: sum of per-tier penalties over all errors. -/
def totalPenalty (errors : List GError) : ℕ :=
  errors.foldl (fun acc e => acc + tierPenalty (determineTier e)) 0

/-- `overall_grammar = min(100, max(0, 100 - total_penalty + complexity_bonus))`. -/
def overallGrammar (errors : List GError) (structures : List SStruct) : ℤ :=
  min 100 (max 0 (100 - (totalPenalty errors : ℤ) + (complexityBonus structures : ℤ)))

/-- The parsed LLM grammar payload, as far as `classify_errors` and the
orchestrator read it: `gemini_analysis.get('grammatical_errors', [])`,
`gemini_analysis.get('sentence_structures', [])` and
`gemini_analysis.get('justification', '')` (missing keys are the
defaults). -/
structure GeminiGrammar where
  grammatical_errors : List GError
  sentence_structures : List SStruct
  justification : String
  deriving DecidableEq

/-- The dictionary returned by `GrammarErrorClassifier.classify_errors`,
with exactly its keys in insertion order. -/
def classifyErrorsDict (g : GeminiGrammar) : PyDict :=
  let errors := g.grammatical_errors
  [("overall_grammar", PyVal.num (overallGrammar errors g.sentence_structures)),
   ("errors_by_tier", PyVal.dict
     (ERROR_TAXONOMY.map (fun t =>
       (t.1, PyVal.list ((errorsOfTier errors t.1).map (fun e =>
         PyVal.dict [("severity", PyVal.str e.severity),
                     ("error_type", PyVal.str e.error_type)])))))),
   ("total_errors", PyVal.num errors.length),
   ("complexity_bonus", PyVal.num (complexityBonus g.sentence_structures)),
   ("breakdown", PyVal.dict
     [("tense_control", PyVal.num (tenseScore errors)),
      ("article_usage", PyVal.num (articleScore errors)),
      ("sentence_complexity", PyVal.num (complexityScore g.sentence_structures))])]

/-! ## Vocabulary analyzer

`app/assessment/scoring/vocabulary_analyzer.py`.  The CEFR word lists
and the engineering-domain list are loaded from resource files, and the
MTLD measure comes from the external `lexical_diversity` library; both
are inputs here: `cefr level token` / `eng token` are the membership
tests of the loaded sets, `hasLexDiv` is the import flag and `mtldRes`
the library's output on the token list (`Option.none` models the
`except` branch around the call). -/

/-- `VocabularyAnalyzer._tokenize`: `\b\w+\b` matches on the lowered
text, i.e. the maximal runs of alphanumeric-or-underscore characters. -/
def tokenize (text : String) : List String :=
  splitDrop (fun c => ¬(c.isAlphanum ∨ c = '_')) (pyLower text)

/-- `VocabularyAnalyzer._calculate_range`. -/
def calculateRange (hasLexDiv : Bool) (mtldRes : Option ℚ) (tokens : List String) : ℚ :=
  if ¬hasLexDiv then
    let ttr : ℚ := if tokens ≠ [] then (tokens.dedup.length : ℚ) / tokens.length else 0
    min 100 (ttr * 150)
  else
    match mtldRes with
    | Option.none => 50
    | some m =>
      if m < 50 then max 10 ((m / 50) * 40)
      else if m < 70 then 40 + ((m - 50) / 20) * 30
      else if m < 90 then 70 + ((m - 70) / 20) * 20
      else 90 + min ((m - 90) / 10) 10

/-- The `CORRECT_COLLOCATIONS` table of
`VocabularyAnalyzer._calculate_precision`. -/
def CORRECT_COLLOCATIONS : List (String × List String) :=
  [("make", ["decision", "mistake", "progress", "effort", "sure"]),
   ("do", ["homework", "research", "damage", "harm", "well"]),
   ("conduct", ["research", "experiment", "survey", "analysis"]),
   ("draw", ["conclusion", "attention", "comparison"])]

/-- `VocabularyAnalyzer._calculate_precision`: collocation check over
adjacent token pairs. -/
def calculatePrecision (tokens : List String) : ℚ :=
  let counts := (tokens.zip tokens.tail).foldl (fun (c : ℕ × ℕ) p =>
    match CORRECT_COLLOCATIONS.find? (fun e => e.1 == p.1) with
    | some e =>
      if p.2 ∈ e.2 then (c.1 + 1, c.2)
      else if p.2 ∈ ["research"] ∧ p.1 = "make" then (c.1, c.2 + 1)
      else c
    | Option.none => c) (0, 0)
  if counts.1 + counts.2 = 0 then 75
  else ((counts.1 : ℚ) / (counts.1 + counts.2)) * 100

/-- Per-token word-level score of
`VocabularyAnalyzer._calculate_sophistication`. -/
def tokenLevelScore (cefr : String → String → Bool) (eng : String → Bool)
    (token : String) : ℕ :=
  let level : ℕ :=
    if cefr "C2" token then 6
    else if cefr "C1" token then 5
    else if cefr "B2" token then 4
    else if cefr "B1" token then 3
    else if cefr "A2" token then 2
    else 1
  if eng token then level + 2 else level

/-- `VocabularyAnalyzer._calculate_sophistication`. -/
def calculateSophistication (cefr : String → String → Bool) (eng : String → Bool)
    (tokens : List String) : ℚ :=
  let word_scores := tokens.map (tokenLevelScore cefr eng)
  if word_scores = [] then 0
  else
    let avg : ℚ := ((word_scores.map (fun n => (n : ℚ))).sum) / word_scores.length
    min 100 ((avg / 6) * 100)

/-- The CEFR levels in the insertion order of `CEFR_WORD_LISTS`. -/
def CEFR_LEVELS : List String := ["A1", "A2", "B1", "B2", "C1", "C2"]

/-- `VocabularyAnalyzer._get_cefr_distribution`: each token counts once,
under its highest matching level, else under `A1`. -/
def cefrBucket (cefr : String → String → Bool) (token : String) : String :=
  match CEFR_LEVELS.reverse.find? (fun lvl => cefr lvl token) with
  | some lvl => lvl
  | Option.none => "A1"

/-- The distribution dict, in its Python key order `A1 .. C2`. -/
def cefrDistribution (cefr : String → String → Bool) (tokens : List String) : PyDict :=
  CEFR_LEVELS.map (fun lvl =>
    (lvl, PyVal.num ((tokens.filter (fun t => cefrBucket cefr t = lvl)).length : ℚ)))

/-- `VocabularyAnalyzer._count_domain_terms`. -/
def countDomainTerms (eng : String → Bool) (tokens : List String) : ℕ :=
  (tokens.filter (fun t => eng t)).length

/-- The dictionary returned by `VocabularyAnalyzer.analyze_vocabulary`,
with exactly its keys in insertion order (both the empty-token early
return and the normal return; `_check_collocations` returns `[]`). -/
def vocabDictOfTokens (cefr : String → String → Bool) (eng : String → Bool)
    (hasLexDiv : Bool) (mtldRes : Option ℚ) (tokens : List String) : PyDict :=
  if tokens = [] then
    [("overall_vocabulary", PyVal.num 0),
     ("breakdown", PyVal.dict
       [("lexical_range", PyVal.num 0), ("precision", PyVal.num 0),
        ("sophistication", PyVal.num 0)]),
     ("word_level_distribution", PyVal.dict []),
     ("domain_terms_used", PyVal.num 0)]
  else
    let range_score := calculateRange hasLexDiv mtldRes tokens
    let precision_score := calculatePrecision tokens
    let sophistication_score := calculateSophistication cefr eng tokens
    let final_score := range_score * (40/100) + precision_score * (35/100) +
      sophistication_score * (25/100)
    [("overall_vocabulary", PyVal.num (pyRound1 final_score)),
     ("breakdown", PyVal.dict
       [("lexical_range", PyVal.num (pyRound1 range_score)),
        ("precision", PyVal.num (pyRound1 precision_score)),
        ("sophistication", PyVal.num (pyRound1 sophistication_score))]),
     ("word_level_distribution", PyVal.dict (cefrDistribution cefr tokens)),
     ("domain_terms_used", PyVal.num (countDomainTerms eng tokens)),
     ("collocation_accuracy", PyVal.list [])]

/-- `VocabularyAnalyzer.analyze_vocabulary` on a transcript. -/
def analyzeVocabularyDict (cefr : String → String → Bool) (eng : String → Bool)
    (hasLexDiv : Bool) (mtldRes : Option ℚ) (transcript : String) : PyDict :=
  vocabDictOfTokens cefr eng hasLexDiv mtldRes (tokenize transcript)

/-! ## Assessment orchestrator

`app/services/analysis_service.py`: `AnalysisService._synthesize_scores`
and the fallback / enrichment steps of `AnalysisService.analyze` between
the `asyncio.gather` join point and synthesis.  The four analyzer tasks
are external LLM calls; each arrives here as an `Except Unit` result —
`Except.error` is the "failed or timed out" case that `analyze` replaces
with its documented neutral-default dictionary.  The downstream response
construction (feedback text, strengths/weaknesses, CEFR labelling)
consumes the synthesized metrics without altering any score, so the
embedding stops at the metrics. -/

/-- The fields of `AnalysisMetrics` that `_synthesize_scores` fills in. -/
structure AnalysisMetrics where
  wpm : ℚ
  unique_words : ℚ
  grammar_score : ℚ
  pronunciation_score : ℚ
  fluency_score : ℚ
  vocabulary_score : ℚ
  overall_score : ℚ
  grammar_breakdown : Option PyVal
  vocab_breakdown : Option PyVal
  confidence_metrics : ConfidenceResult

/-- `AnalysisService._synthesize_scores`: clamp each payload's `score`
field (neutral default 50 on a missing key), combine with the fixed
weights 25/20/25/30, and attach the confidence calculator's output.
`Option.none` models the `TypeError` a non-numeric field would raise. -/
def synthesizeScores (grammar_data vocab_data fluency_data pronunciation_data : PyDict) :
    Option AnalysisMetrics := do
  let gs ← pyGetNum grammar_data "score" 50
  let vs ← pyGetNum vocab_data "score" 50
  let fs ← pyGetNum fluency_data "score" 50
  let ps ← pyGetNum pronunciation_data "score" 50
  let grammar_score := clampScore gs
  let vocab_score := clampScore vs
  let fluency_score := clampScore fs
  let pronunciation_score := clampScore ps
  let overall_score := grammar_score * (25/100) + vocab_score * (20/100) +
    fluency_score * (25/100) + pronunciation_score * (30/100)
  let audio_quality ← pyGetNum pronunciation_data "accuracy_score" 85
  let duration ← pyGetNum pronunciation_data "processing_time" 30
  let word_count ← pyGetNum vocab_data "word_count" 0
  let unique_words ← pyGetNum vocab_data "unique_words" 0
  pure
    { wpm := word_count / (3/2)
      unique_words := unique_words
      grammar_score := grammar_score
      pronunciation_score := pronunciation_score
      fluency_score := fluency_score
      vocabulary_score := vocab_score
      overall_score := overall_score
      grammar_breakdown := pyGet grammar_data "breakdown"
      vocab_breakdown := pyGet vocab_data "breakdown"
      confidence_metrics := calculateConfidence audio_quality duration word_count }

/-- The neutral-default dictionary `analyze` substitutes for a failed
fluency task. -/
def defaultFluencyData : PyDict := [("fluency_score", PyVal.num 50)]

/-- The neutral-default dictionary `analyze` substitutes for a failed
pronunciation task. -/
def defaultPronunciationData : PyDict :=
  [("pronunciation_score", PyVal.num 50), ("confidence", PyVal.num (3/10))]

/-- The grammar payload `classify_errors` sees when the grammar task
failed: `{"grammar_score": 50, "errors": [], "justification": "Analysis
failed"}`, whose `grammatical_errors` / `sentence_structures` reads
yield the empty defaults. -/
def defaultGeminiGrammar : GeminiGrammar := ⟨[], [], "Analysis failed"⟩

/-- The grammar payload `analyze` hands to synthesis: the classifier's
dictionary with the LLM justification attached. -/
def grammarPayload (g : GeminiGrammar) : PyDict :=
  pySet (classifyErrorsDict g) "justification" (PyVal.str g.justification)

/-- The vocabulary payload `analyze` hands to synthesis: the analyzer's
dictionary enriched with `word_count`, `unique_words` and
`justification` (`len(request.text.split())` and
`len(set(request.text.lower().split()))`). -/
def vocabPayload (cefr : String → String → Bool) (eng : String → Bool)
    (hasLexDiv : Bool) (mtldRes : Option ℚ) (text : String) : PyDict :=
  pySet (pySet (pySet (analyzeVocabularyDict cefr eng hasLexDiv mtldRes text)
      "word_count" (PyVal.num ((pySplitWs text).length : ℚ)))
    "unique_words" (PyVal.num ((pySplitWs (pyLower text)).dedup.length : ℚ)))
    "justification" (PyVal.str "Vocabulary enrichment and MTLD analysis complete.")

/-- `AnalysisService.analyze` from the `asyncio.gather` join point to
synthesis: replace failed tasks by their neutral defaults, re-derive the
grammar payload through `classify_errors`, rebuild the vocabulary
payload with `analyze_vocabulary` (discarding the vocabulary task's own
output, as the source does), and synthesize.  `vocabRes` is accepted and
ignored exactly as in the source. -/
def analyzeFlow (cefr : String → String → Bool) (eng : String → Bool)
    (hasLexDiv : Bool) (mtldRes : Option ℚ) (text : String)
    (grammarRes : Except Unit GeminiGrammar) (vocabRes : Except Unit PyDict)
    (fluencyRes : Except Unit PyDict) (pronRes : Except Unit PyDict) :
    Option AnalysisMetrics :=
  let _ := vocabRes
  let gemini_grammar := match grammarRes with
    | Except.ok g => g
    | Except.error _ => defaultGeminiGrammar
  let grammar_data := grammarPayload gemini_grammar
  let vocab_data := vocabPayload cefr eng hasLexDiv mtldRes text
  let fluency_data := match fluencyRes with
    | Except.ok d => d
    | Except.error _ => defaultFluencyData
  let pronunciation_data := match pronRes with
    | Except.ok d => d
    | Except.error _ => defaultPronunciationData
  synthesizeScores grammar_data vocab_data fluency_data pronunciation_data

/-! ## Mispronunciation detector

`app/services/hinglish_stt_service.py`: the phoneme acceptability rules,
the dual-pass detection (`_classify_pronunciation_errors` over the
recognizer's word/phoneme observations, `_detect_text_mispronunciations`
over the transcript) and `_merge_insights`. -/

/-- `HinglishSTTService.PHONEME_EQUIVALENTS`, verbatim and in order
(a Python dict mapping phoneme pairs to `True`). -/
def PHONEME_EQUIVALENTS : List ((String × String) × Bool) :=
  [(("ɪ", "i"), true), (("i", "ɪ"), true), (("iː", "ɪ"), true), (("ɪ", "iː"), true),
   (("uː", "ʊ"), true), (("ʊ", "uː"), true), (("ɑː", "ɑ"), true), (("ɑ", "ɑː"), true),
   (("æ", "ɛ"), true), (("ɛ", "æ"), true), (("ə", "ʌ"), true), (("ʌ", "ə"), true),
   (("ɔː", "ɒ"), true), (("ɒ", "ɔː"), true), (("ɔ", "ɒ"), true), (("ɒ", "ɔ"), true),
   (("eɪ", "e"), true), (("e", "eɪ"), true), (("oʊ", "o"), true), (("o", "oʊ"), true),
   (("t", "t̬"), true), (("t̬", "t"), true), (("t", "ɾ"), true), (("ɾ", "t"), true),
   (("d", "ɾ"), true), (("ɾ", "d"), true),
   (("ɹ", "r"), true), (("r", "ɹ"), true), (("ɹ", "ɻ"), true), (("ɻ", "ɹ"), true),
   (("p", "pʰ"), true), (("pʰ", "p"), true), (("k", "kʰ"), true), (("kʰ", "k"), true),
   (("t", "tʰ"), true), (("tʰ", "t"), true),
   (("l", "ɫ"), true), (("ɫ", "l"), true)]

/-- `self.PHONEME_EQUIVALENTS.get((expected, actually_said), False)`. -/
def phonemeEquivGet (k : String × String) : Bool :=
  (((PHONEME_EQUIVALENTS.find? (fun e => e.1 == k)).map (·.2)).getD false)

/-- `HinglishSTTService._is_phoneme_acceptable`. -/
def isPhonemeAcceptable (expected : String) (actually_said : Option String) : Bool :=
  match actually_said with
  | Option.none => true
  | some a => if expected == a then true else phonemeEquivGet (expected, a)

/-- The directional `PATTERN_MAP` of
`_classify_pronunciation_errors`, verbatim and in order; `Option.none`
entries are the "acceptable, skip" overrides. -/
def PATTERN_MAP : List ((String × String) × Option (String × String)) :=
  [(("ʃ", "s"), some ("sh_s_confusion", "Woh 'sh' sound — jaise library mein 'shhh' karte hain — thoda aur strong chahiye.")),
   (("ʃ", "ʂ"), some ("sh_s_confusion", "Woh 'sh' sound — jaise library mein 'shhh' karte hain — thoda aur strong chahiye.")),
   (("w", "v"), some ("v_w_confusion", "Almost! 'W' sound mein lips round karo, 'v' nahi — like you're about to whistle.")),
   (("v", "w"), some ("v_w_reverse", "Yahan 'V' chahiye — upper teeth lower lip pe. 'W' nahi, 'V'.")),
   (("θ", "t"), some ("th_d_confusion", "Yeh 'th' wala sound tricky hai — tongue ko teeth ke beech rakho. 'Think' bolo slowly?")),
   (("θ", "d"), some ("th_d_confusion", "Yeh 'th' wala sound tricky hai — tongue ko teeth ke beech rakho.")),
   (("θ", "f"), some ("th_f_confusion", "Close! But 'th' mein tongue teeth ke beech — 'f' nahi. Try 'think' slowly.")),
   (("ð", "d"), some ("th_d_confusion", "'The' mein tongue teeth ke beech — try slowly?")),
   (("ð", "t"), some ("th_d_confusion", "'The' mein tongue teeth ke beech — try slowly?")),
   (("ð", "z"), some ("th_z_confusion", "Almost! 'The' mein tongue teeth ke beech — 'z' nahi.")),
   (("z", "s"), some ("z_s_confusion", "'Z' sound mein vibration chahiye throat mein — like a buzzing bee!")),
   (("z", "dʒ"), some ("z_j_confusion", "'Z' aur 'J' alag hain — 'Z' mein buzzing, 'J' mein jaw move hoti hai.")),
   (("f", "p"), some ("f_p_confusion", "'F' mein upper teeth lower lip touch karte hain — hawa bahar aati hai. 'P' nahi.")),
   (("ʒ", "dʒ"), Option.none),
   (("ʒ", "z"), some ("zh_z_confusion", "Yeh 'zh' sound hai — jaise 'pleasure' mein. 'Z' se thoda softer.")),
   (("ʒ", "ʃ"), some ("zh_sh_confusion", "'Vision' mein 'zh' hai, 'sh' nahi — throat mein vibration feel karo.")),
   (("ɹ", "ɾ"), Option.none),
   (("ɹ", "ɻ"), Option.none)]

/-- `(expected, heard) in PATTERN_MAP` lookup:
`some v` when the pair is a key with table entry `v`. -/
def patternMapGet (k : String × String) : Option (Option (String × String)) :=
  (PATTERN_MAP.find? (fun e => e.1 == k)).map (·.2)

/-- One phoneme observation as the service stores it
(`PhonemeDetail` in `app/models/response.py`); `nbest` holds the
`Phoneme` field of each N-best candidate dict (`Option.none` for a
candidate without that key, matching `c.get("Phoneme")`). -/
structure PhonemeDetail where
  phoneme : String
  accuracy_score : ℚ
  actually_said : Option String
  is_correct : Bool
  nbest : List (Option String)
  deriving DecidableEq

/-- One word observation (`WordDetail` in `app/models/response.py`). -/
structure WordDetail where
  word : String
  accuracy_score : ℚ
  error_type : String
  phonemes : List PhonemeDetail
  deriving DecidableEq

/-- An entry of `critical_errors` / `minor_errors`:
`{"word": ..., "score": ...}`. -/
structure ErrRec where
  word : String
  score : ℚ
  deriving DecidableEq

/-- An `indian_english_patterns` record, kept as the dict it is in the
source (the phoneme pass and the text pass build records with different
key sets). -/
abbrev PatRec := List (String × String)

/-- First value under key `k` in a pattern record, with a default
(`p.get(k, d)`). -/
def patGetD (p : PatRec) (k d : String) : String :=
  (((p.find? (fun e => e.1 == k)).map (·.2)).getD d)

/-- The deduplication key `f"{pattern_name}_{word}"` used both by
`_classify_pronunciation_errors` and `_merge_insights` (the former
indexes the always-present keys directly, the latter uses `.get` with
`''`; both read the same values on the records they see). -/
def patKey (p : PatRec) : String :=
  patGetD p "pattern_name" "" ++ "_" ++ patGetD p "word" ""

/-- The insight report: the three lists of
`_classify_pronunciation_errors` / `_merge_insights`. -/
structure Insights where
  critical_errors : List ErrRec
  minor_errors : List ErrRec
  indian_english_patterns : List PatRec
  deriving DecidableEq

/-- The phoneme-pass pattern record
`{"word": w, "pattern_name": n, "hint": h}`. -/
def mkPatRec (w n h : String) : PatRec :=
  [("word", w), ("pattern_name", n), ("hint", h)]

/-- The candidate scan of `_classify_pronunciation_errors`: walk the
ranked N-best candidates in order, skip absent symbols, and return the
first candidate whose `(expected, heard)` pair has a non-null
`PATTERN_MAP` entry, together with that entry (a null entry means
"acceptable" and the scan continues). -/
def findPatternHit (expected : String) : List (Option String) → Option (String × String × String)
  | [] => Option.none
  | Option.none :: rest => findPatternHit expected rest
  | some heard :: rest =>
    match patternMapGet (expected, heard) with
    | some (some nh) => some (heard, nh.1, nh.2)
    | _ => findPatternHit expected rest

/-- Append a minor error unless the word is already listed
(`if word.word not in [e["word"] for e in insights["minor_errors"]]`). -/
def addMinorDedup (acc : Insights) (w : String) (score : ℚ) : Insights :=
  if w ∈ acc.minor_errors.map (·.word) then acc
  else { acc with minor_errors := acc.minor_errors ++ [⟨w, score⟩] }

/-- The per-phoneme body of `_classify_pronunciation_errors`: pattern
scan first (on a hit the phoneme is marked incorrect and its
`actually_said` overwritten — the in-place mutation in the source), else
the unknown-substitution and soft-threshold minor-error checks. -/
def processPhoneme (w : String) (acc : Insights) (p : PhonemeDetail) :
    Insights × PhonemeDetail :=
  match findPatternHit p.phoneme p.nbest with
  | some (heard, n, h) =>
    ({ acc with indian_english_patterns := acc.indian_english_patterns ++ [mkPatRec w n h] },
     { p with is_correct := false, actually_said := some heard })
  | Option.none =>
    if ¬ p.is_correct then (addMinorDedup acc w p.accuracy_score, p)
    else if p.accuracy_score < 82 then (addMinorDedup acc w p.accuracy_score, p)
    else (acc, p)

/-- One iteration of the phoneme loop: thread the insights and collect
the (possibly mutated) phoneme details in order. -/
def phonemeStep (w : String) (s : Insights × List PhonemeDetail)
    (p : PhonemeDetail) : Insights × List PhonemeDetail :=
  let r := processPhoneme w s.1 p
  (r.1, s.2 ++ [r.2])

/-- The word-level `error_type == "Mispronunciation"` check at the top
of the per-word loop. -/
def wordLevelStep (acc : Insights) (w : WordDetail) : Insights :=
  if w.error_type = "Mispronunciation" then
    if w.accuracy_score < 60 then
      { acc with critical_errors := acc.critical_errors ++ [⟨w.word, w.accuracy_score⟩] }
    else
      { acc with minor_errors := acc.minor_errors ++ [⟨w.word, w.accuracy_score⟩] }
  else acc

/-- The end-of-word consonant-dropping check, on the (possibly mutated)
last phoneme collected by the loop. -/
def consonantDropStep (w : String) (s : Insights × List PhonemeDetail) : Insights :=
  match s.2.getLast? with
  | some lastP =>
    if ¬ lastP.is_correct ∧ lastP.phoneme ∉ ["ə", "ɪ", "ʊ"] then
      { s.1 with indian_english_patterns := s.1.indian_english_patterns ++
          [mkPatRec w "consonant_dropping"
            "Last sound drop ho raha hai — pura word complete karo."] }
    else s.1
  | Option.none => s.1

/-- The per-word body of `_classify_pronunciation_errors`: word-level
`error_type` check, the phoneme loop, then the end-of-word
consonant-dropping check. -/
def processWord (acc : Insights) (w : WordDetail) : Insights :=
  consonantDropStep w.word (w.phonemes.foldl (phonemeStep w.word) (wordLevelStep acc w, []))

/-- `HinglishSTTService._classify_pronunciation_errors`. -/
def classifyPronunciationErrors (words : List WordDetail) : Insights :=
  let ins := words.foldl processWord ⟨[], [], []⟩
  { ins with indian_english_patterns := dedupFirst patKey ins.indian_english_patterns [] }

/-- The phoneme extraction of `assess_pronunciation` /
`_soft_pronunciation_pass`: the locally heard symbol is the top N-best
candidate's `Phoneme` (empty string if the key is absent), `is_correct`
is its acceptability against the expected symbol, and `actually_said`
is stored only when unacceptable.  `topHeard` is the local
`actually_said = nbest_phonemes[0].get("Phoneme", "") if nbest_phonemes
else None`. -/
def topHeard (nbest : List (Option String)) : Option String :=
  match nbest.head? with
  | Option.none => Option.none
  | some c => some (c.getD "")

/-- Build one stored `PhonemeDetail` from the raw entry. -/
def mkPhonemeDetail (expected : String) (score : ℚ) (nbest : List (Option String)) :
    PhonemeDetail :=
  let actually_said : Option String := topHeard nbest
  let is_correct := isPhonemeAcceptable expected actually_said
  { phoneme := expected
    accuracy_score := score
    actually_said := if is_correct then Option.none else actually_said
    is_correct := is_correct
    nbest := nbest }

/-- `HinglishSTTService.MISPRONUNCIATION_DICT`, verbatim and in order:
`(misspelled/phonetic version, correct word, pattern, hint)`. -/
def MISPRONUNCIATION_DICT : List (String × String × String × String) :=
  [("engless", "English", "vowel_substitution", "It's 'Ing-lish', not 'engless' — try emphasizing the 'I' at the start."),
   ("inglish", "English", "vowel_substitution", "'English' mein pehle 'I' sound hai, like 'IN-glish'. Try again?"),
   ("anglish", "English", "vowel_substitution", "Almost! It starts with 'In', not 'An'. 'IN-glish' — try?"),
   ("yenglish", "English", "y_insertion", "'English' mein no 'Y' — seedha 'IN-glish' bolo."),
   ("pepul", "people", "vowel_substitution", "'People' mein 'pee-pul' bolo — the 'ee' sound is important, not 'e'."),
   ("pipul", "people", "vowel_substitution", "'People' is 'PEE-pul' — that first vowel needs to be longer."),
   ("peepal", "people", "vowel_substitution", "'People' and 'peepal' sound similar but different! It's 'PEE-pul'."),
   ("peepul", "people", "vowel_substitution", "'People' — close! Just make sure it's 'PEE-pul', not 'peepal' like the tree."),
   ("vater", "water", "v_w_confusion", "Almost! 'Water' starts with 'W' — lips round karo, like you're about to whistle. 'WA-ter'."),
   ("vhater", "water", "v_w_confusion", "The 'W' in 'water' needs rounded lips — try 'WA-ter' slowly?"),
   ("vork", "work", "v_w_confusion", "'Work' mein 'W' hai — lips round karo. 'WORK', not 'vork'."),
   ("vorld", "world", "v_w_confusion", "'World' starts with 'W' — lips gol karo aur bolo 'WORLD'."),
   ("ven", "when", "v_w_confusion", "'When' mein 'W' — lips round! Not 'ven'."),
   ("vhat", "what", "v_w_confusion", "'What' mein 'W' hai — lips round karo, 'v' nahi."),
   ("vith", "with", "v_w_confusion", "'With' — 'W' se start karo, lips round. Not 'vith'."),
   ("vill", "will", "v_w_confusion", "'Will' mein 'W' hai — round your lips! Not 'vill'."),
   ("vay", "way", "v_w_confusion", "'Way' mein 'W' — lips gol! Not 'vay'."),
   ("vine", "wine", "v_w_confusion", "'Wine' aur 'vine' alag hain! 'Wine' mein lips round karo."),
   ("vest", "west", "v_w_confusion", "'West' aur 'vest' alag hain — 'West' mein lips round."),
   ("tink", "think", "th_d_confusion", "'Think' mein tongue teeth ke beech rakho — 'TH-ink', not 'tink'."),
   ("ting", "thing", "th_d_confusion", "'Thing' ka 'th' tricky hai — tongue teeth ke beech. Try 'TH-ing'?"),
   ("tree", "three", "th_d_confusion", "'Three' and 'tree' are different! 'Three' mein tongue teeth ke beech — 'TH-ree'."),
   ("tru", "through", "th_d_confusion", "'Through' starts with 'th' — tongue teeth ke beech. Not 'tru'."),
   ("dey", "they", "th_d_confusion", "'They' ka 'th' — tongue teeth ke beech, soft breath. Not 'dey'."),
   ("dat", "that", "th_d_confusion", "'That' mein 'th' sound — tongue teeth ke beech. Not 'dat'."),
   ("dis", "this", "th_d_confusion", "'This' mein 'th' — tongue teeth ke beech. Not 'dis'."),
   ("der", "there", "th_d_confusion", "'There' mein 'th' — tongue teeth ke beech, not 'd'."),
   ("dem", "them", "th_d_confusion", "'Them' mein 'th' — tongue teeth ke beech."),
   ("tankyou", "thank you", "th_d_confusion", "'Thank' mein 'TH' — tongue teeth ke beech. Almost everyone struggles with this one!"),
   ("tanks", "thanks", "th_d_confusion", "'Thanks' mein 'TH' — not 'tanks'. Tongue teeth ke beech!"),
   ("ischool", "school", "initial_vowel_addition", "'School' seedha 'sk' se start hota hai — no extra 'i' at the start."),
   ("eschool", "school", "initial_vowel_addition", "'School' — no extra vowel needed at the start. Just 'SKOOL'."),
   ("istation", "station", "initial_vowel_addition", "'Station' seedha 'st' se start karo — no 'i' at the beginning."),
   ("ispecial", "special", "initial_vowel_addition", "'Special' seedha 'sp' se start — no 'i' needed."),
   ("ispeak", "speak", "initial_vowel_addition", "'Speak' directly 'sp' se — no 'i' at the start."),
   ("wonly", "only", "w_insertion", "'Only' mein no 'W' at the start — seedha 'OWN-lee' bolo."),
   ("yonly", "only", "y_insertion", "'Only' mein no 'Y' — seedha 'OWN-lee'."),
   ("yexam", "exam", "y_insertion", "'Exam' mein no 'Y' — seedha 'ig-ZAM'."),
   ("pronounciation", "pronunciation", "spelling_pronunciation", "Classic one! It's 'pro-NUN-ciation', not 'pro-NOUN-ciation'. The 'noun' changes to 'nun'."),
   ("cumfortable", "comfortable", "vowel_substitution", "'Comfortable' — it starts with 'COM', not 'CUM'. Try 'KUMF-ter-bul'."),
   ("prablem", "problem", "vowel_substitution", "'Problem' mein 'o' sound hai, 'a' nahi — 'PROB-lem'."),
   ("divelopment", "development", "vowel_substitution", "'Development' mein 'de' hai, 'di' nahi — 'di-VEL-up-ment'."),
   ("aksed", "asked", "consonant_metathesis", "'Asked' mein 'sk' hai, 'ks' nahi — try 'ASKT' slowly."),
   ("axed", "asked", "consonant_metathesis", "'Asked' mein 'sk' order important hai — 'ASKT', not 'AXED'."),
   ("pitcher", "picture", "consonant_confusion", "'Picture' aur 'pitcher' alag hain! 'PIC-cher' — the 'k' sound matters."),
   ("libary", "library", "consonant_dropping", "'Library' mein dono 'r' bolo — 'LY-brer-ee', not 'ly-berry'."),
   ("libery", "library", "consonant_dropping", "'Library' — 'LY-brer-ee'. Dono 'r' important hain."),
   ("expresso", "espresso", "spelling_pronunciation", "'Espresso' — no 'X'! It's 'es-PRESS-oh'."),
   ("eckcetera", "etcetera", "spelling_pronunciation", "'Etcetera' — 'et-SET-era', not 'eck-cetera'."),
   ("exetera", "etcetera", "spelling_pronunciation", "'Etcetera' — 'et-SET-era', not 'exe-tera'."),
   ("fil", "feel", "vowel_shortening", "'Feel' has a long 'ee' — 'FEEL', not 'fil'. Stretch it out!"),
   ("shit", "sheet", "vowel_shortening", "Careful! 'Sheet' has a long 'ee' — 'SHEET'. Short 'i' changes the meaning completely!"),
   ("bich", "beach", "vowel_shortening", "'Beach' has a long 'ee' — 'BEECH'. The short version is a different word!"),
   ("iss", "is", "z_s_confusion", "'Is' ends with a 'Z' sound, not 'S'. Try buzzing at the end — 'IZZ'."),
   ("wass", "was", "z_s_confusion", "'Was' ends with a 'Z' buzz — 'WUZ', not 'WASS'."),
   ("hass", "has", "z_s_confusion", "'Has' ends with 'Z' — 'HAZ', not 'HASS'.")]

/-- `HinglishSTTService._detect_text_mispronunciations`: scan the
lowered transcript for the dictionary entries (whole-word match against
the split, else substring match), deduplicating by
`f"{pattern_name}_{correct_word}"` with a `seen` set. -/
def detectTextMispronunciations (text : String) : Insights :=
  let text_lower := pyLower text
  let words_lower := pySplitWs text_lower
  let step := MISPRONUNCIATION_DICT.foldl
    (fun (s : List PatRec × List String) e =>
      let miss := e.1
      let correct := e.2.1
      let pname := e.2.2.1
      let hint := e.2.2.2
      let miss_lower := pyLower miss
      let found := miss_lower ∈ words_lower || pyInStr miss_lower text_lower
      if found then
        let pattern_key := pname ++ "_" ++ correct
        if pattern_key ∈ s.2 then s
        else (s.1 ++ [[("word", correct), ("detected_as", miss),
                       ("pattern_name", pname), ("hint", hint)]],
              s.2 ++ [pattern_key])
      else s) ([], [])
  ⟨[], [], step.1⟩

/-- `HinglishSTTService._merge_insights`: concatenate the two passes'
lists (a `None` pass contributes nothing), deduplicate patterns by
`f"{pattern_name}_{word}"` and errors by word, first occurrence wins. -/
def mergeInsights (phoneme_insights text_insights : Option Insights) : Insights :=
  let pi := phoneme_insights.getD ⟨[], [], []⟩
  let ti := text_insights.getD ⟨[], [], []⟩
  let critical := pi.critical_errors ++ ti.critical_errors
  let minor := pi.minor_errors ++ ti.minor_errors
  let patterns := pi.indian_english_patterns ++ ti.indian_english_patterns
  { critical_errors := dedupFirst (·.word) critical []
    minor_errors := dedupFirst (·.word) minor []
    indian_english_patterns := dedupFirst patKey patterns [] }

/-- One raw phoneme entry of the recognizer's JSON, as far as the
extraction reads it: expected `Phoneme`, `AccuracyScore`, and the
`Phoneme` fields of the `NBestPhonemes` list. -/
structure RawPhoneme where
  phoneme : String
  accuracy_score : ℚ
  nbest : List (Option String)
  deriving DecidableEq

/-- One raw word entry of the recognizer's JSON. -/
structure RawWord where
  word : String
  accuracy_score : ℚ
  error_type : String
  phonemes : List RawPhoneme
  deriving DecidableEq

/-- The word-extraction loop of `assess_pronunciation` /
`_soft_pronunciation_pass`: build each `PhonemeDetail` with
`mkPhonemeDetail`. -/
def parseWord (r : RawWord) : WordDetail :=
  { word := r.word
    accuracy_score := r.accuracy_score
    error_type := r.error_type
    phonemes := r.phonemes.map (fun p => mkPhonemeDetail p.phoneme p.accuracy_score p.nbest) }

/-- Every pattern name `_classify_pronunciation_errors` can emit: the
non-null values of `PATTERN_MAP` plus `consonant_dropping`. -/
def classifierPatternNames : List String :=
  ["sh_s_confusion", "v_w_confusion", "v_w_reverse", "th_d_confusion",
   "th_f_confusion", "th_z_confusion", "z_s_confusion", "z_j_confusion",
   "f_p_confusion", "zh_z_confusion", "zh_sh_confusion", "consonant_dropping"]

/-- A record the phoneme pass can produce: the literal three-key dict
with a classifier pattern name. -/
def goodPat (r : PatRec) : Prop :=
  ∃ w n h, r = mkPatRec w n h ∧ n ∈ classifierPatternNames

/-! ## Properties -/

/-- **C6.** Every phoneme pair listed in the equivalence table is
accepted by `_is_phoneme_acceptable` in both argument orders: the table
is symmetric and the acceptability check honours it both ways. -/
theorem phoneme_equivalents_symmetric :
    ∀ e ∈ PHONEME_EQUIVALENTS,
      isPhonemeAcceptable e.1.1 (some e.1.2) = true ∧
      isPhonemeAcceptable e.1.2 (some e.1.1) = true := by
  decide

/-- Witness for C6 at the concrete table pair `(ɪ, i)`. -/
theorem phoneme_equivalents_symmetric_witness :
    isPhonemeAcceptable "ɪ" (some "i") = true ∧
    isPhonemeAcceptable "i" (some "ɪ") = true :=
  phoneme_equivalents_symmetric (("ɪ", "i"), true) (by decide)

/-- **C4 counterexample.** At the maximal raw prosody input 100 the
adjusted prosody component is exactly 80 — it does not approach 100. -/
theorem adjustProsody_max_counterexample :
    adjustProsody 100 = 80 ∧ ¬ (90 ≤ adjustProsody 100) := by
  norm_num [adjustProsody]

/-- **C4 (amended).** The prosody adjustment compresses raw estimates at
or above 90 with slope 1/2 starting from 75, so for every raw input up
to the maximum of 100 the adjusted component is at most 80, and it
attains 80 exactly at raw input 100 (not "near 100"). -/
theorem adjustProsody_compression_ceiling (p : ℚ) (hp : p ≤ 100) :
    adjustProsody p ≤ 80 ∧ adjustProsody 100 = 80 := by
  constructor
  · unfold adjustProsody
    split_ifs with h1 h2 <;> linarith
  · norm_num [adjustProsody]

/-- Witness for C4 (amended) at raw prosody 100. -/
theorem adjustProsody_compression_ceiling_witness :
    (100 : ℚ) ≤ 100 ∧ (adjustProsody 100 ≤ 80 ∧ adjustProsody 100 = 80) :=
  ⟨by norm_num, adjustProsody_compression_ceiling 100 (by norm_num)⟩

/-- `foldl`-accumulated penalty as a mapped sum. -/
theorem totalPenalty_eq_sum (errors : List GError) :
    totalPenalty errors = (errors.map (fun e => tierPenalty (determineTier e))).sum := by
  unfold totalPenalty
  suffices h : ∀ (l : List GError) (n : ℕ),
      l.foldl (fun acc e => acc + tierPenalty (determineTier e)) n =
        n + (l.map (fun e => tierPenalty (determineTier e))).sum by
    simpa using h errors 0
  intro l
  induction l with
  | nil => simp
  | cons x xs ih => intro n; simp [ih, Nat.add_assoc]

/-- **C10.** The overall grammar score is clamped into `[0, 100]` for
every combination of classified errors and sentence structures, the
complexity bonus never exceeds 15, and twenty Tier-1 errors drive the
score to exactly 0 (never negative). -/
theorem grammar_score_clamped (errors : List GError) (structures : List SStruct) :
    0 ≤ overallGrammar errors structures ∧
    overallGrammar errors structures ≤ 100 ∧
    complexityBonus structures ≤ 15 ∧
    ((∀ e ∈ errors, determineTier e = "TIER_1") → errors.length = 20 →
      overallGrammar errors structures = 0) := by
  have hbonus : complexityBonus structures ≤ 15 := by
    unfold complexityBonus
    exact min_le_right _ 15
  refine ⟨?_, ?_, hbonus, ?_⟩
  · exact le_min (by norm_num) (le_max_left 0 _)
  · exact min_le_left _ _
  · intro htier hlen
    have hpen : totalPenalty errors = 200 := by
      rw [totalPenalty_eq_sum]
      have hconst : ∀ x ∈ errors.map (fun e => tierPenalty (determineTier e)), x = 10 := by
        intro x hx
        obtain ⟨e, he, rfl⟩ := List.mem_map.mp hx
        rw [htier e he]
        rfl
      rw [List.sum_eq_card_nsmul _ 10 hconst]
      simp [hlen]
    unfold overallGrammar
    rw [hpen]
    omega

/-- Witness for C10: twenty explicit `TIER_1` errors and no structures
give overall grammar score 0. -/
theorem grammar_score_clamped_witness :
    overallGrammar (List.replicate 20 ⟨"TIER_1", ""⟩) [] = 0 :=
  (grammar_score_clamped (List.replicate 20 ⟨"TIER_1", ""⟩) []).2.2.2
    (by decide) (by decide)

/-- Rounding to the nearest integer is monotone on `ℚ`. -/
theorem round_mono_rat {x y : ℚ} (h : x ≤ y) : round x ≤ round y := by
  rw [round_eq, round_eq]
  exact Int.floor_mono (by linarith)

/-- `pyRound1` is monotone. -/
theorem pyRound1_mono {x y : ℚ} (h : x ≤ y) : pyRound1 x ≤ pyRound1 y := by
  unfold pyRound1
  have : (round (x * 10) : ℚ) ≤ (round (y * 10) : ℚ) :=
    Int.cast_le.mpr (round_mono_rat (by linarith))
  linarith

/-- The audio-quality band ladder is monotone. -/
theorem baseConfidence_mono {q q' : ℚ} (h : q ≤ q') :
    baseConfidence q ≤ baseConfidence q' := by
  unfold baseConfidence
  split_ifs <;> linarith

/-- Base confidence is nonnegative. -/
theorem baseConfidence_nonneg (q : ℚ) : 0 ≤ baseConfidence q := by
  unfold baseConfidence
  split_ifs <;> norm_num

/-- Every minimum-sample requirement is positive. -/
theorem minSample_pos (m : String) : 0 < minSample m := by
  unfold minSample
  split_ifs <;> norm_num

/-- The sample factor (with its sub-20% penalty) is monotone in the
sample size. -/
theorem sampleFactor_mono (m : String) {s s' : ℚ} (h : s ≤ s') :
    sampleFactor m s ≤ sampleFactor m s' := by
  unfold sampleFactor shortSamplePenalty
  have hd := minSample_pos m
  have hx : min 1 (s / minSample m) ≤ min 1 (s' / minSample m) := by
    gcongr
  split_ifs <;> linarith

/-- The sample factor is nonnegative for nonnegative sample sizes. -/
theorem sampleFactor_nonneg (m : String) {s : ℚ} (h : 0 ≤ s) :
    0 ≤ sampleFactor m s := by
  unfold sampleFactor shortSamplePenalty
  have hd := minSample_pos m
  have hx : 0 ≤ min 1 (s / minSample m) :=
    le_min (by norm_num) (div_nonneg h hd.le)
  split_ifs <;> linarith

/-- The margin-of-error field, unfolded. -/
theorem margin_of_error_def (q s : ℚ) (m : String) :
    (calculateMetricConfidence q s m).margin_of_error =
      pyRound1 ((1 - finalConfidence m q s) * 15) := rfl

/-- **C9.** For a fixed metric type the margin of error is monotonically
non-increasing in both inputs: raising the audio quality (at a fixed
nonnegative sample size) or raising the sample size (at a fixed audio
quality and nonnegative starting sample) never increases the margin,
including across the 20%-of-minimum penalty boundary. -/
theorem confidence_margin_antitone (metric_type : String) (q q' s s' : ℚ)
    (hs0 : 0 ≤ s) (hq : q ≤ q') (hs : s ≤ s') :
    (calculateMetricConfidence q' s metric_type).margin_of_error ≤
      (calculateMetricConfidence q s metric_type).margin_of_error ∧
    (calculateMetricConfidence q s' metric_type).margin_of_error ≤
      (calculateMetricConfidence q s metric_type).margin_of_error := by
  constructor
  · rw [margin_of_error_def, margin_of_error_def]
    apply pyRound1_mono
    have hfc : finalConfidence metric_type q s ≤ finalConfidence metric_type q' s :=
      mul_le_mul_of_nonneg_right (baseConfidence_mono hq) (sampleFactor_nonneg _ hs0)
    linarith
  · rw [margin_of_error_def, margin_of_error_def]
    apply pyRound1_mono
    have hfc : finalConfidence metric_type q s ≤ finalConfidence metric_type q s' :=
      mul_le_mul_of_nonneg_left (sampleFactor_mono _ hs) (baseConfidence_nonneg q)
    linarith

/-- Witness for C9: pronunciation metric, quality 80 → 95, sample
10s → 20s. -/
theorem confidence_margin_antitone_witness :
    (calculateMetricConfidence 95 10 "pronunciation").margin_of_error ≤
      (calculateMetricConfidence 80 10 "pronunciation").margin_of_error ∧
    (calculateMetricConfidence 80 20 "pronunciation").margin_of_error ≤
      (calculateMetricConfidence 80 10 "pronunciation").margin_of_error :=
  confidence_margin_antitone "pronunciation" 80 95 10 20
    (by norm_num) (by norm_num) (by norm_num)

/-- The grammar payload handed to synthesis never carries a `score`
key, whatever the classifier computed: its keys are exactly
`overall_grammar`, `errors_by_tier`, `total_errors`, `complexity_bonus`,
`breakdown`, `justification`. -/
theorem grammarPayload_score (g : GeminiGrammar) :
    pyGetNum (grammarPayload g) "score" 50 = some 50 := rfl

/-- The vocabulary payload handed to synthesis never carries a `score`
key either (in both the empty-transcript and the normal branch). -/
theorem vocabPayload_score (cefr : String → String → Bool) (eng : String → Bool)
    (hld : Bool) (mtld : Option ℚ) (text : String) :
    pyGetNum (vocabPayload cefr eng hld mtld text) "score" 50 = some 50 := by
  unfold vocabPayload analyzeVocabularyDict vocabDictOfTokens
  by_cases h : tokenize text = []
  · rw [if_pos h]; rfl
  · rw [if_neg h]; rfl

/-- The vocabulary payload's `word_count` field. -/
theorem vocabPayload_word_count (cefr : String → String → Bool) (eng : String → Bool)
    (hld : Bool) (mtld : Option ℚ) (text : String) :
    pyGetNum (vocabPayload cefr eng hld mtld text) "word_count" 0 =
      some ((pySplitWs text).length : ℚ) := by
  unfold vocabPayload analyzeVocabularyDict vocabDictOfTokens
  by_cases h : tokenize text = []
  · rw [if_pos h]; rfl
  · rw [if_neg h]; rfl

/-- The vocabulary payload's `unique_words` field. -/
theorem vocabPayload_unique_words (cefr : String → String → Bool) (eng : String → Bool)
    (hld : Bool) (mtld : Option ℚ) (text : String) :
    pyGetNum (vocabPayload cefr eng hld mtld text) "unique_words" 0 =
      some ((pySplitWs (pyLower text)).dedup.length : ℚ) := by
  unfold vocabPayload analyzeVocabularyDict vocabDictOfTokens
  by_cases h : tokenize text = []
  · rw [if_pos h]; rfl
  · rw [if_neg h]; rfl

/-- Any successful synthesis decomposes into the four clamped `score`
reads and the fixed-weight combination. -/
theorem synthesizeScores_fields {gd vd fd pd : PyDict} {m : AnalysisMetrics}
    (h : synthesizeScores gd vd fd pd = some m) :
    ∃ gs vs fs ps,
      pyGetNum gd "score" 50 = some gs ∧
      pyGetNum vd "score" 50 = some vs ∧
      pyGetNum fd "score" 50 = some fs ∧
      pyGetNum pd "score" 50 = some ps ∧
      m.grammar_score = clampScore gs ∧
      m.vocabulary_score = clampScore vs ∧
      m.fluency_score = clampScore fs ∧
      m.pronunciation_score = clampScore ps ∧
      m.overall_score = m.grammar_score * (25/100) + m.vocabulary_score * (20/100) +
        m.fluency_score * (25/100) + m.pronunciation_score * (30/100) := by
  unfold synthesizeScores at h
  simp only [Option.bind_eq_bind, Option.bind_eq_some] at h
  obtain ⟨gs, hgs, vs, hvs, fs, hfs, ps, hps, aq, haq, dur, hdur, wc, hwc, uw, huw, hm⟩ := h
  simp only [Option.pure_def, Option.some.injEq] at hm
  subst hm
  exact ⟨gs, vs, fs, ps, hgs, hvs, hfs, hps, rfl, rfl, rfl, rfl, rfl⟩

/-- **C2.** Whenever the flow reaches synthesis and produces metrics,
the grammar and vocabulary dimension scores in those metrics are the
default 50, regardless of the grammar classifier's and vocabulary
analyzer's computed results: `_synthesize_scores` reads the key
`score`, but the classifier emits `overall_grammar` and the analyzer
emits `overall_vocabulary`, so the `.get(..., 50)` fallback always
fires for these two dimensions. -/
theorem synthesis_score_key_mismatch (cefr : String → String → Bool)
    (eng : String → Bool) (hld : Bool) (mtld : Option ℚ) (text : String)
    (grammarRes : Except Unit GeminiGrammar) (vocabRes : Except Unit PyDict)
    (fluencyRes : Except Unit PyDict) (pronRes : Except Unit PyDict)
    (m : AnalysisMetrics)
    (h : analyzeFlow cefr eng hld mtld text grammarRes vocabRes fluencyRes pronRes = some m) :
    m.grammar_score = 50 ∧ m.vocabulary_score = 50 := by
  unfold analyzeFlow at h
  obtain ⟨gs, vs, _fs, _ps, hgs, hvs, _, _, hmg, hmv, _⟩ := synthesizeScores_fields h
  rw [grammarPayload_score] at hgs
  rw [vocabPayload_score] at hvs
  obtain rfl : (50 : ℚ) = gs := Option.some.inj hgs
  obtain rfl : (50 : ℚ) = vs := Option.some.inj hvs
  refine ⟨?_, ?_⟩ <;> · first
    | (rw [hmg]; norm_num [clampScore])
    | (rw [hmv]; norm_num [clampScore])

/-- Witness for C2: a concrete run (empty transcript, successful but
score-less analyzer payloads) synthesizes grammar and vocabulary scores
of exactly 50. -/
theorem synthesis_score_key_mismatch_witness :
    (analyzeFlow (fun _ _ => false) (fun _ => false) false Option.none ""
        (Except.ok ⟨[], [], ""⟩) (Except.ok []) (Except.ok []) (Except.ok [])).map
      (fun m => (m.grammar_score, m.vocabulary_score)) = some (50, 50) := by
  cases h : analyzeFlow (fun _ _ => false) (fun _ => false) false Option.none ""
      (Except.ok ⟨[], [], ""⟩) (Except.ok []) (Except.ok []) (Except.ok []) with
  | none =>
    exfalso
    have hs : (analyzeFlow (fun _ _ => false) (fun _ => false) false Option.none ""
        (Except.ok ⟨[], [], ""⟩) (Except.ok []) (Except.ok [])
        (Except.ok [])).isSome = true := by decide
    rw [h] at hs
    exact Bool.noConfusion hs
  | some m =>
    have hm := synthesis_score_key_mismatch (fun _ _ => false) (fun _ => false) false
      Option.none "" (Except.ok ⟨[], [], ""⟩) (Except.ok []) (Except.ok [])
      (Except.ok []) m h
    simp [Option.map, hm.1, hm.2]

/-- **C1.** If the grammar analyzer fails or times out while the other
three tasks succeed (with payloads whose relevant fields, when present,
are numeric), the flow still produces complete metrics; the grammar
sub-score is the documented neutral default 50, and the overall score
is the weighted sum `grammar*0.25 + vocabulary*0.20 + fluency*0.25 +
pronunciation*0.30` of the four synthesized sub-scores. -/
theorem grammar_failure_neutral_default (cefr : String → String → Bool)
    (eng : String → Bool) (hld : Bool) (mtld : Option ℚ) (text : String)
    (vocabRes : Except Unit PyDict) (fluency_payload pron_payload : PyDict)
    (hf : (pyGetNum fluency_payload "score" 50).isSome)
    (hp : (pyGetNum pron_payload "score" 50).isSome)
    (hpa : (pyGetNum pron_payload "accuracy_score" 85).isSome)
    (hpt : (pyGetNum pron_payload "processing_time" 30).isSome) :
    ∃ m, analyzeFlow cefr eng hld mtld text (Except.error ()) vocabRes
        (Except.ok fluency_payload) (Except.ok pron_payload) = some m ∧
      m.grammar_score = 50 ∧
      m.overall_score = m.grammar_score * (25/100) + m.vocabulary_score * (20/100) +
        m.fluency_score * (25/100) + m.pronunciation_score * (30/100) := by
  obtain ⟨fs, hfs⟩ := Option.isSome_iff_exists.mp hf
  obtain ⟨ps, hps⟩ := Option.isSome_iff_exists.mp hp
  obtain ⟨aq, haq⟩ := Option.isSome_iff_exists.mp hpa
  obtain ⟨dur, hdur⟩ := Option.isSome_iff_exists.mp hpt
  have hflow : analyzeFlow cefr eng hld mtld text (Except.error ()) vocabRes
      (Except.ok fluency_payload) (Except.ok pron_payload) =
      synthesizeScores (grammarPayload defaultGeminiGrammar)
        (vocabPayload cefr eng hld mtld text) fluency_payload pron_payload := rfl
  have hsome : (synthesizeScores (grammarPayload defaultGeminiGrammar)
      (vocabPayload cefr eng hld mtld text) fluency_payload pron_payload).isSome = true := by
    unfold synthesizeScores
    simp [grammarPayload_score, vocabPayload_score, vocabPayload_word_count,
      vocabPayload_unique_words, hfs, hps, haq, hdur]
  obtain ⟨m, hm⟩ := Option.isSome_iff_exists.mp hsome
  refine ⟨m, by rw [hflow]; exact hm, ?_, ?_⟩
  · obtain ⟨gs, _vs, _fs', _ps', hgs, _, _, _, hmg, _, _, _, _⟩ := synthesizeScores_fields hm
    rw [grammarPayload_score] at hgs
    obtain rfl : (50 : ℚ) = gs := Option.some.inj hgs
    rw [hmg]; norm_num [clampScore]
  · obtain ⟨_, _, _, _, _, _, _, _, _, _, _, _, hov⟩ := synthesizeScores_fields hm
    exact hov

/-- Witness for C1: grammar task failed, the other three succeeded with
concrete numeric payloads; the produced metrics carry grammar score 50
and the weighted-sum overall score. -/
theorem grammar_failure_neutral_default_witness :
    (analyzeFlow (fun _ _ => false) (fun _ => false) false Option.none ""
        (Except.error ()) (Except.ok []) (Except.ok [("score", PyVal.num 70)])
        (Except.ok [("score", PyVal.num 60), ("accuracy_score", PyVal.num 90),
          ("processing_time", PyVal.num 12)])).map
      (fun m => (m.grammar_score,
        decide (m.overall_score = m.grammar_score * (25/100) +
          m.vocabulary_score * (20/100) + m.fluency_score * (25/100) +
          m.pronunciation_score * (30/100)))) = some (50, true) := by
  obtain ⟨m, hm, h50, hov⟩ := grammar_failure_neutral_default (fun _ _ => false)
    (fun _ => false) false Option.none "" (Except.ok []) [("score", PyVal.num 70)]
    [("score", PyVal.num 60), ("accuracy_score", PyVal.num 90),
      ("processing_time", PyVal.num 12)]
    (by decide) (by decide) (by decide) (by decide)
  rw [hm]
  simp [Option.map, h50, hov]

/-- First-occurrence deduplication yields a sublist of the input. -/
theorem dedupFirst_sublist {α : Type} (key : α → String) :
    ∀ (l : List α) (seen : List String), (dedupFirst key l seen).Sublist l := by
  intro l
  induction l with
  | nil => intro seen; simp [dedupFirst]
  | cons x xs ih =>
    intro seen
    unfold dedupFirst
    split
    · exact (ih seen).cons x
    · exact (ih (key x :: seen)).cons₂ x

/-- No surviving record's key was already seen. -/
theorem dedupFirst_key_not_seen {α : Type} (key : α → String) :
    ∀ (l : List α) (seen : List String) (r : α),
      r ∈ dedupFirst key l seen → key r ∉ seen := by
  intro l
  induction l with
  | nil => intro seen r hr; simp [dedupFirst] at hr
  | cons x xs ih =>
    intro seen r hr
    unfold dedupFirst at hr
    split at hr
    · exact ih seen r hr
    · rcases List.mem_cons.mp hr with rfl | hr'
      · assumption
      · intro hmem
        exact ih (key x :: seen) r hr' (List.mem_cons_of_mem _ hmem)

/-- Surviving records have pairwise distinct keys. -/
theorem dedupFirst_pairwise {α : Type} (key : α → String) :
    ∀ (l : List α) (seen : List String),
      (dedupFirst key l seen).Pairwise (fun a b => key a ≠ key b) := by
  intro l
  induction l with
  | nil => intro seen; simp [dedupFirst]
  | cons x xs ih =>
    intro seen
    unfold dedupFirst
    split
    · exact ih seen
    · refine List.Pairwise.cons ?_ (ih (key x :: seen))
      intro b hb
      have := dedupFirst_key_not_seen key xs (key x :: seen) b hb
      intro hkey
      exact this (hkey ▸ List.mem_cons_self _ _)

/-- Every key present in the input has a surviving representative. -/
theorem dedupFirst_exists_key {α : Type} (key : α → String) :
    ∀ (l : List α) (seen : List String) (r : α),
      r ∈ l → key r ∉ seen →
      ∃ r' ∈ dedupFirst key l seen, key r' = key r := by
  intro l
  induction l with
  | nil => intro seen r hr; exact absurd hr (List.not_mem_nil r)
  | cons x xs ih =>
    intro seen r hr hseen
    unfold dedupFirst
    split
    · rcases List.mem_cons.mp hr with rfl | hr'
      · exact absurd (by assumption) hseen
      · exact ih seen r hr' hseen
    · by_cases hk : key r = key x
      · exact ⟨x, List.mem_cons_self _ _, hk.symm⟩
      · rcases List.mem_cons.mp hr with rfl | hr'
        · exact absurd rfl hk
        · obtain ⟨r', hr'', hkey⟩ := ih (key x :: seen) r hr'
            (by simp [hseen, hk])
          exact ⟨r', List.mem_cons_of_mem _ hr'', hkey⟩

/-- Equal `(pattern_name, word)` fields give equal dedup keys. -/
theorem patKey_congr {a b : PatRec}
    (h1 : patGetD a "pattern_name" "" = patGetD b "pattern_name" "")
    (h2 : patGetD a "word" "" = patGetD b "word" "") : patKey a = patKey b := by
  unfold patKey
  rw [h1, h2]

/-- **C8.** The merged interference-pattern list never contains two
entries with the same `(pattern_name, word)` key; the merge keeps a
sublist of the concatenated pass outputs (first occurrences, in order)
and every input key keeps exactly its first surviving representative. -/
theorem merged_patterns_key_unique (pi ti : Option Insights) :
    (mergeInsights pi ti).indian_english_patterns.Pairwise
      (fun a b => ¬(patGetD a "pattern_name" "" = patGetD b "pattern_name" "" ∧
                    patGetD a "word" "" = patGetD b "word" "")) ∧
    (mergeInsights pi ti).indian_english_patterns.Sublist
      ((pi.getD ⟨[], [], []⟩).indian_english_patterns ++
       (ti.getD ⟨[], [], []⟩).indian_english_patterns) ∧
    (∀ r ∈ (pi.getD ⟨[], [], []⟩).indian_english_patterns ++
          (ti.getD ⟨[], [], []⟩).indian_english_patterns,
      ∃ r' ∈ (mergeInsights pi ti).indian_english_patterns, patKey r' = patKey r) := by
  have hdef : (mergeInsights pi ti).indian_english_patterns =
      dedupFirst patKey ((pi.getD ⟨[], [], []⟩).indian_english_patterns ++
        (ti.getD ⟨[], [], []⟩).indian_english_patterns) [] := rfl
  refine ⟨?_, ?_, ?_⟩
  · rw [hdef]
    refine (dedupFirst_pairwise patKey _ []).imp ?_
    intro a b hkey ⟨h1, h2⟩
    exact hkey (patKey_congr h1 h2)
  · rw [hdef]
    exact dedupFirst_sublist patKey _ []
  · intro r hr
    rw [hdef]
    exact dedupFirst_exists_key patKey _ [] r hr (by simp)

/-- Witness for C8 at a concrete pair of pass results sharing one key. -/
theorem merged_patterns_key_unique_witness :
    (mergeInsights (some ⟨[], [], [mkPatRec "water" "v_w_confusion" "a"]⟩)
        (some ⟨[], [], [mkPatRec "water" "v_w_confusion" "b"]⟩)).indian_english_patterns.Pairwise
      (fun a b => ¬(patGetD a "pattern_name" "" = patGetD b "pattern_name" "" ∧
                    patGetD a "word" "" = patGetD b "word" "")) :=
  (merged_patterns_key_unique (some ⟨[], [], [mkPatRec "water" "v_w_confusion" "a"]⟩)
    (some ⟨[], [], [mkPatRec "water" "v_w_confusion" "b"]⟩)).1

/-- **C3 counterexample.** A run where the phoneme pass and the text
pass both detect `(v_w_confusion, water)`: the merged list keeps the
first (phoneme-pass) record unchanged, and no merged record carries any
`detectedBy` / `detected_by` field at all — in particular the collapsed
duplicate is not tagged `both`. -/
theorem merge_no_detectedBy_counterexample :
    (mergeInsights
        (some (classifyPronunciationErrors
          [⟨"water", 95, "None", [mkPhonemeDetail "w" 95 [some "v", some "w"]]⟩]))
        (some (detectTextMispronunciations "vater"))).indian_english_patterns =
      [mkPatRec "water" "v_w_confusion"
         "Almost! 'W' sound mein lips round karo, 'v' nahi — like you're about to whistle.",
       mkPatRec "water" "consonant_dropping"
         "Last sound drop ho raha hai — pura word complete karo."] ∧
    (detectTextMispronunciations "vater").indian_english_patterns.map patKey =
      ["v_w_confusion_water"] ∧
    ((mergeInsights
        (some (classifyPronunciationErrors
          [⟨"water", 95, "None", [mkPhonemeDetail "w" 95 [some "v", some "w"]]⟩]))
        (some (detectTextMispronunciations "vater"))).indian_english_patterns.map
      (fun r => r.map (fun e => e.1))) =
      [["word", "pattern_name", "hint"], ["word", "pattern_name", "hint"]] := by
  decide

/-- **C3 (amended).** Merged interference-pattern records carry no
`detectedBy` tag: every record in the merged list is taken verbatim
from one of the two pass outputs (so its keys are exactly the keys that
pass wrote), and when both passes detect the same `(patternName, word)`
key only the first occurrence — the phoneme-pass record — survives,
untagged. -/
theorem merge_keeps_pass_records (pi ti : Option Insights) :
    ∀ r ∈ (mergeInsights pi ti).indian_english_patterns,
      r ∈ (pi.getD ⟨[], [], []⟩).indian_english_patterns ++
          (ti.getD ⟨[], [], []⟩).indian_english_patterns := by
  intro r hr
  have hdef : (mergeInsights pi ti).indian_english_patterns =
      dedupFirst patKey ((pi.getD ⟨[], [], []⟩).indian_english_patterns ++
        (ti.getD ⟨[], [], []⟩).indian_english_patterns) [] := rfl
  rw [hdef] at hr
  exact (dedupFirst_sublist patKey _ []).subset hr

/-- Witness for C3 (amended) at a concrete merge. -/
theorem merge_keeps_pass_records_witness :
    mkPatRec "water" "v_w_confusion" "a" ∈
      ((some (Insights.mk [] [] [mkPatRec "water" "v_w_confusion" "a"])).getD
          ⟨[], [], []⟩).indian_english_patterns ++
        ((some (Insights.mk [] [] [mkPatRec "water" "v_w_confusion" "x"])).getD
          ⟨[], [], []⟩).indian_english_patterns :=
  merge_keeps_pass_records
    (some ⟨[], [], [mkPatRec "water" "v_w_confusion" "a"]⟩)
    (some ⟨[], [], [mkPatRec "water" "v_w_confusion" "x"]⟩)
    (mkPatRec "water" "v_w_confusion" "a") (by decide)

/-- The minor-error append with its per-word deduplication never
introduces a word different from the appended one. -/
theorem addMinorDedup_not_flagged {acc : Insights} {w t : String} {s : ℚ}
    (hm : t ∉ acc.minor_errors.map (·.word)) (hw : w ≠ t) :
    t ∉ (addMinorDedup acc w s).minor_errors.map (·.word) := by
  unfold addMinorDedup
  split
  · exact hm
  · intro hmem
    rcases List.mem_map.mp hmem with ⟨e, he, hew⟩
    rcases List.mem_append.mp he with he' | he'
    · exact hm (List.mem_map.mpr ⟨e, he', hew⟩)
    · rcases List.mem_singleton.mp he' with rfl
      exact hw hew

/-- `addMinorDedup` never changes the critical list. -/
theorem addMinorDedup_critical (acc : Insights) (w : String) (s : ℚ) :
    (addMinorDedup acc w s).critical_errors = acc.critical_errors := by
  unfold addMinorDedup
  split <;> rfl

/-- A phoneme whose stored detail is either matched by a pattern, or
correct with a score at or above the soft 82 threshold, never puts its
word into the error lists. -/
theorem processPhoneme_not_flagged {w t : String} {acc : Insights} {p : PhonemeDetail}
    (hc : t ∉ acc.critical_errors.map (·.word))
    (hm : t ∉ acc.minor_errors.map (·.word))
    (hgood : w = t → 82 ≤ p.accuracy_score ∧ p.is_correct = true) :
    t ∉ (processPhoneme w acc p).1.critical_errors.map (·.word) ∧
    t ∉ (processPhoneme w acc p).1.minor_errors.map (·.word) := by
  unfold processPhoneme
  cases hhit : findPatternHit p.phoneme p.nbest with
  | some v =>
    obtain ⟨c, n, h⟩ := v
    exact ⟨hc, hm⟩
  | none =>
    by_cases hic : p.is_correct = true
    · rw [if_neg (by simp [hic])]
      by_cases hsc : p.accuracy_score < 82
      · have hw : w ≠ t := fun hwt => absurd hsc (not_lt.mpr (hgood hwt).1)
        rw [if_pos hsc]
        exact ⟨by rw [addMinorDedup_critical]; exact hc, addMinorDedup_not_flagged hm hw⟩
      · rw [if_neg hsc]
        exact ⟨hc, hm⟩
    · have hw : w ≠ t := fun hwt => absurd (hgood hwt).2 hic
      rw [if_pos (by simp [hic])]
      exact ⟨by rw [addMinorDedup_critical]; exact hc, addMinorDedup_not_flagged hm hw⟩

/-- The phoneme loop preserves the not-flagged invariant. -/
theorem foldl_phonemeStep_not_flagged {w t : String} :
    ∀ (ps : List PhonemeDetail) (s : Insights × List PhonemeDetail),
      t ∉ s.1.critical_errors.map (·.word) →
      t ∉ s.1.minor_errors.map (·.word) →
      (∀ p ∈ ps, w = t → 82 ≤ p.accuracy_score ∧ p.is_correct = true) →
      t ∉ (ps.foldl (phonemeStep w) s).1.critical_errors.map (·.word) ∧
      t ∉ (ps.foldl (phonemeStep w) s).1.minor_errors.map (·.word) := by
  intro ps
  induction ps with
  | nil => intro s hc hm _; exact ⟨hc, hm⟩
  | cons p ps ih =>
    intro s hc hm hgood
    have hstep := processPhoneme_not_flagged
      hc hm (hgood p (List.mem_cons_self _ _))
    exact ih (phonemeStep w s p) hstep.1 hstep.2
      (fun q hq => hgood q (List.mem_cons_of_mem _ hq))

/-- The word-level check never flags a word of different text, and never
flags a word that is not labelled `Mispronunciation`. -/
theorem wordLevelStep_not_flagged {t : String} {acc : Insights} {w : WordDetail}
    (hc : t ∉ acc.critical_errors.map (·.word))
    (hm : t ∉ acc.minor_errors.map (·.word))
    (hwt : w.word = t → w.error_type ≠ "Mispronunciation") :
    t ∉ (wordLevelStep acc w).critical_errors.map (·.word) ∧
    t ∉ (wordLevelStep acc w).minor_errors.map (·.word) := by
  unfold wordLevelStep
  by_cases herr : w.error_type = "Mispronunciation"
  · have hne : w.word ≠ t := fun h => absurd herr (hwt h)
    rw [if_pos herr]
    split
    · refine ⟨?_, hm⟩
      intro hmem
      rcases List.mem_map.mp hmem with ⟨e, he, hew⟩
      rcases List.mem_append.mp he with he' | he'
      · exact hc (List.mem_map.mpr ⟨e, he', hew⟩)
      · rcases List.mem_singleton.mp he' with rfl
        exact hne hew
    · refine ⟨hc, ?_⟩
      intro hmem
      rcases List.mem_map.mp hmem with ⟨e, he, hew⟩
      rcases List.mem_append.mp he with he' | he'
      · exact hm (List.mem_map.mpr ⟨e, he', hew⟩)
      · rcases List.mem_singleton.mp he' with rfl
        exact hne hew
  · rw [if_neg herr]
    exact ⟨hc, hm⟩

/-- The consonant-dropping check only touches the pattern list. -/
theorem consonantDropStep_errors (w : String) (s : Insights × List PhonemeDetail) :
    (consonantDropStep w s).critical_errors = s.1.critical_errors ∧
    (consonantDropStep w s).minor_errors = s.1.minor_errors := by
  unfold consonantDropStep
  constructor <;> (split <;> first | rfl | (split <;> rfl))

/-- One word that is not marked `Mispronunciation` and whose stored
phonemes are all good never flags `t`; other words only flag their own
text. -/
theorem processWord_not_flagged {t : String} {acc : Insights} {w : WordDetail}
    (hc : t ∉ acc.critical_errors.map (·.word))
    (hm : t ∉ acc.minor_errors.map (·.word))
    (hgood : w.word = t → w.error_type ≠ "Mispronunciation" ∧
      ∀ p ∈ w.phonemes, 82 ≤ p.accuracy_score ∧ p.is_correct = true) :
    t ∉ (processWord acc w).critical_errors.map (·.word) ∧
    t ∉ (processWord acc w).minor_errors.map (·.word) := by
  unfold processWord
  obtain ⟨hc1, hm1⟩ := wordLevelStep_not_flagged
    hc hm (fun h => (hgood h).1)
  obtain ⟨hc2, hm2⟩ := foldl_phonemeStep_not_flagged (w := w.word) (t := t)
    w.phonemes (wordLevelStep acc w, []) hc1 hm1 (fun p hp hwt => (hgood hwt).2 p hp)
  obtain ⟨he1, he2⟩ := consonantDropStep_errors w.word
    (w.phonemes.foldl (phonemeStep w.word) (wordLevelStep acc w, []))
  rw [he1, he2]
  exact ⟨hc2, hm2⟩

/-- The word loop preserves the not-flagged invariant. -/
theorem foldl_processWord_not_flagged {t : String} :
    ∀ (ws : List WordDetail) (acc : Insights),
      t ∉ acc.critical_errors.map (·.word) →
      t ∉ acc.minor_errors.map (·.word) →
      (∀ w ∈ ws, w.word = t → w.error_type ≠ "Mispronunciation" ∧
        ∀ p ∈ w.phonemes, 82 ≤ p.accuracy_score ∧ p.is_correct = true) →
      t ∉ (ws.foldl processWord acc).critical_errors.map (·.word) ∧
      t ∉ (ws.foldl processWord acc).minor_errors.map (·.word) := by
  intro ws
  induction ws with
  | nil => intro acc hc hm _; exact ⟨hc, hm⟩
  | cons w ws ih =>
    intro acc hc hm hgood
    have hstep := processWord_not_flagged
      hc hm (hgood w (List.mem_cons_self _ _))
    exact ih _ hstep.1 hstep.2 (fun v hv => hgood v (List.mem_cons_of_mem _ hv))

/-- **C5 counterexample.** A word observation whose only phoneme scores
95 ≥ 82 and whose top-ranked candidate matches the expected phoneme
exactly is still placed in `minorErrors` when the recognizer labelled
the word `Mispronunciation` — the word-level `error_type` branch fires
regardless of the phoneme evidence. -/
theorem high_score_word_still_flagged_counterexample :
    (82 : ℚ) ≤ 95 ∧
    isPhonemeAcceptable "w" (topHeard [some "w"]) = true ∧
    (classifyPronunciationErrors
        [parseWord ⟨"water", 95, "Mispronunciation", [⟨"w", 95, [some "w"]⟩]⟩]).minor_errors =
      [⟨"water", 95⟩] := by
  refine ⟨by norm_num, by decide, by decide⟩

/-- **C5 (amended).** For every word observation whose recognizer error
kind is not `Mispronunciation`, whose phoneme accuracy scores are all at
or above the fixed soft threshold 82, and whose top-ranked N-best
candidate matches the expected phoneme exactly or as an acceptable
equivalent, the classifier never places that word's text in
`criticalErrors` or `minorErrors`. -/
theorem high_score_matching_word_not_flagged (words : List RawWord) (t : String)
    (hgood : ∀ w ∈ words, w.word = t →
      w.error_type ≠ "Mispronunciation" ∧
      ∀ p ∈ w.phonemes, 82 ≤ p.accuracy_score ∧
        isPhonemeAcceptable p.phoneme (topHeard p.nbest) = true) :
    t ∉ (classifyPronunciationErrors (words.map parseWord)).critical_errors.map (·.word) ∧
    t ∉ (classifyPronunciationErrors (words.map parseWord)).minor_errors.map (·.word) := by
  have hdefc : (classifyPronunciationErrors (words.map parseWord)).critical_errors =
      ((words.map parseWord).foldl processWord ⟨[], [], []⟩).critical_errors := rfl
  have hdefm : (classifyPronunciationErrors (words.map parseWord)).minor_errors =
      ((words.map parseWord).foldl processWord ⟨[], [], []⟩).minor_errors := rfl
  rw [hdefc, hdefm]
  apply foldl_processWord_not_flagged (t := t) (words.map parseWord) ⟨[], [], []⟩
    (by simp) (by simp)
  intro w hw hwt
  rcases List.mem_map.mp hw with ⟨raw, hraw, rfl⟩
  have hraw' := hgood raw hraw hwt
  refine ⟨hraw'.1, ?_⟩
  intro p hp
  rcases List.mem_map.mp hp with ⟨rp, hrp, rfl⟩
  obtain ⟨hs, hacc⟩ := hraw'.2 rp hrp
  exact ⟨hs, hacc⟩

/-- Witness for C5 (amended): a clean word observation is not flagged. -/
theorem high_score_matching_word_not_flagged_witness :
    "water" ∉ (classifyPronunciationErrors
        [parseWord ⟨"water", 95, "None", [⟨"w", 95, [some "w"]⟩]⟩]).critical_errors.map
        (·.word) ∧
    "water" ∉ (classifyPronunciationErrors
        [parseWord ⟨"water", 95, "None", [⟨"w", 95, [some "w"]⟩]⟩]).minor_errors.map
        (·.word) :=
  high_score_matching_word_not_flagged [⟨"water", 95, "None", [⟨"w", 95, [some "w"]⟩]⟩]
    "water" (by decide)

/-- A candidate-scan hit reports a pair that is really in the pattern
table (with a non-null entry). -/
theorem findPatternHit_sound {e c n h : String} :
    ∀ cands : List (Option String),
      findPatternHit e cands = some (c, n, h) →
      patternMapGet (e, c) = some (some (n, h)) := by
  intro cands
  induction cands with
  | nil => intro hf; exact absurd hf (by simp [findPatternHit])
  | cons x rest ih =>
    intro hf
    cases x with
    | none => exact ih hf
    | some s =>
      unfold findPatternHit at hf
      cases hg : patternMapGet (e, s) with
      | none => rw [hg] at hf; exact ih hf
      | some v =>
        cases v with
        | none => rw [hg] at hf; exact ih hf
        | some nh =>
          rw [hg] at hf
          obtain ⟨rfl, rfl, rfl⟩ : s = c ∧ nh.1 = n ∧ nh.2 = h := by
            have := Option.some.inj hf
            exact ⟨congrArg (·.1) this, congrArg (fun t => t.2.1) this,
              congrArg (fun t => t.2.2) this⟩
          exact hg

/-- Every non-null pattern-table value is one of the classifier's
pattern names. -/
theorem patternMapGet_names {k : String × String} {nh : String × String}
    (h : patternMapGet k = some (some nh)) : nh.1 ∈ classifierPatternNames := by
  unfold patternMapGet at h
  obtain ⟨e, he, hev⟩ := Option.map_eq_some'.mp h
  have hmem := List.mem_of_find?_eq_some he
  have hall : ∀ e ∈ PATTERN_MAP, ∀ nh : String × String,
      e.2 = some nh → nh.1 ∈ classifierPatternNames := by decide
  exact hall e hmem nh hev

/-- For expected phoneme `w`, the only key in the pattern table is
`(w, v)`: any other heard symbol misses the table entirely. -/
theorem patternMapGet_w_eq_none {s : String} (hs : s ≠ "v") :
    patternMapGet ("w", s) = Option.none := by
  have hv : ("v" == s) = false := beq_eq_false_iff_ne.mpr (Ne.symm hs)
  unfold patternMapGet PATTERN_MAP
  simp [List.find?, instBEqProd, hv]

/-- The candidate scan returns the first candidate whose pair has a
non-null table entry, skipping absent symbols and candidates whose pair
is either not in the table or mapped to null. -/
theorem findPatternHit_append {e c n h : String} :
    ∀ (pre : List (Option String)) (rest : List (Option String)),
      patternMapGet (e, c) = some (some (n, h)) →
      (∀ x ∈ pre, ∀ s : String, x = some s →
        patternMapGet (e, s) = Option.none ∨ patternMapGet (e, s) = some Option.none) →
      findPatternHit e (pre ++ some c :: rest) = some (c, n, h) := by
  intro pre
  induction pre with
  | nil =>
    intro rest hhit _
    rw [List.nil_append]
    unfold findPatternHit
    rw [hhit]
  | cons x pre ih =>
    intro rest hhit hskip
    cases x with
    | none =>
      exact ih rest hhit (fun y hy => hskip y (List.mem_cons_of_mem _ hy))
    | some s =>
      have hs := hskip (some s) (List.mem_cons_self _ _) s rfl
      show findPatternHit e (some s :: (pre ++ some c :: rest)) = some (c, n, h)
      unfold findPatternHit
      rcases hs with hs | hs <;> rw [hs] <;>
        exact ih rest hhit (fun y hy => hskip y (List.mem_cons_of_mem _ hy))

/-- With expected phoneme `w` and `v` anywhere among the candidates,
the scan yields the `v_w_confusion` pattern. -/
theorem findPatternHit_w_v :
    ∀ cands : List (Option String), some "v" ∈ cands →
      ∃ c h', findPatternHit "w" cands = some (c, "v_w_confusion", h') := by
  intro cands
  induction cands with
  | nil => intro hmem; exact absurd hmem (List.not_mem_nil _)
  | cons x rest ih =>
    intro hmem
    cases x with
    | none =>
      have : some "v" ∈ rest := by
        rcases List.mem_cons.mp hmem with hx | hx
        · exact absurd hx (by simp)
        · exact hx
      exact ih this
    | some s =>
      by_cases hs : s = "v"
      · subst hs
        exact ⟨"v", _, rfl⟩
      · have hrest : some "v" ∈ rest := by
          rcases List.mem_cons.mp hmem with hx | hx
          · exact absurd (Option.some.inj hx).symm hs
          · exact hx
        obtain ⟨c, h', hf⟩ := ih hrest
        refine ⟨c, h', ?_⟩
        show findPatternHit "w" (some s :: rest) = some (c, "v_w_confusion", h')
        unfold findPatternHit
        rw [patternMapGet_w_eq_none hs]
        exact hf

/-- `addMinorDedup` never changes the pattern list. -/
theorem addMinorDedup_patterns (acc : Insights) (w : String) (s : ℚ) :
    (addMinorDedup acc w s).indian_english_patterns = acc.indian_english_patterns := by
  unfold addMinorDedup
  split <;> rfl

/-- The phoneme step only ever appends to the pattern list. -/
theorem processPhoneme_patterns_extend (w : String) (acc : Insights) (p : PhonemeDetail) :
    acc.indian_english_patterns <+: (processPhoneme w acc p).1.indian_english_patterns := by
  unfold processPhoneme
  split
  · exact List.prefix_append _ _
  · split
    · show acc.indian_english_patterns <+:
        (addMinorDedup acc w p.accuracy_score).indian_english_patterns
      rw [addMinorDedup_patterns]
    · split
      · show acc.indian_english_patterns <+:
          (addMinorDedup acc w p.accuracy_score).indian_english_patterns
        rw [addMinorDedup_patterns]
      · exact List.prefix_rfl

/-- The phoneme loop only ever appends to the pattern list. -/
theorem foldl_phonemeStep_patterns_extend (w : String) :
    ∀ (ps : List PhonemeDetail) (s : Insights × List PhonemeDetail),
      s.1.indian_english_patterns <+:
        (ps.foldl (phonemeStep w) s).1.indian_english_patterns := by
  intro ps
  induction ps with
  | nil => intro s; exact List.prefix_rfl
  | cons p ps ih =>
    intro s
    exact (processPhoneme_patterns_extend w s.1 p).trans (ih (phonemeStep w s p))

/-- The word-level check never changes the pattern list. -/
theorem wordLevelStep_patterns (acc : Insights) (w : WordDetail) :
    (wordLevelStep acc w).indian_english_patterns = acc.indian_english_patterns := by
  unfold wordLevelStep
  split <;> first | rfl | (split <;> rfl)

/-- The consonant-dropping check only ever appends to the pattern
list. -/
theorem consonantDropStep_patterns_extend (w : String) (s : Insights × List PhonemeDetail) :
    s.1.indian_english_patterns <+: (consonantDropStep w s).indian_english_patterns := by
  unfold consonantDropStep
  split
  · split
    · exact List.prefix_append _ _
    · exact List.prefix_rfl
  · exact List.prefix_rfl

/-- The word body only ever appends to the pattern list. -/
theorem processWord_patterns_extend (acc : Insights) (w : WordDetail) :
    acc.indian_english_patterns <+: (processWord acc w).indian_english_patterns := by
  unfold processWord
  have h1 : acc.indian_english_patterns <+:
      (wordLevelStep acc w).indian_english_patterns := by
    rw [wordLevelStep_patterns]
  exact (h1.trans (foldl_phonemeStep_patterns_extend w.word w.phonemes
    (wordLevelStep acc w, []))).trans (consonantDropStep_patterns_extend w.word _)

/-- The word loop only ever appends to the pattern list. -/
theorem foldl_processWord_patterns_extend :
    ∀ (ws : List WordDetail) (acc : Insights),
      acc.indian_english_patterns <+:
        (ws.foldl processWord acc).indian_english_patterns := by
  intro ws
  induction ws with
  | nil => intro acc; exact List.prefix_rfl
  | cons w ws ih =>
    intro acc
    exact (processWord_patterns_extend acc w).trans (ih (processWord acc w))

/-- A scan hit on a phoneme lands its record in the step's pattern
list. -/
theorem processPhoneme_hit_mem {w : String} {acc : Insights} {p : PhonemeDetail}
    {c n h : String} (hhit : findPatternHit p.phoneme p.nbest = some (c, n, h)) :
    mkPatRec w n h ∈ (processPhoneme w acc p).1.indian_english_patterns := by
  unfold processPhoneme
  rw [hhit]
  exact List.mem_append_right _ (List.mem_singleton.mpr rfl)

/-- A scan hit on any phoneme of the loop lands its record in the
loop's pattern list. -/
theorem foldl_phonemeStep_hit_mem {w : String} {c n h : String} :
    ∀ (ps : List PhonemeDetail) (s : Insights × List PhonemeDetail) (p : PhonemeDetail),
      p ∈ ps → findPatternHit p.phoneme p.nbest = some (c, n, h) →
      mkPatRec w n h ∈ (ps.foldl (phonemeStep w) s).1.indian_english_patterns := by
  intro ps
  induction ps with
  | nil => intro s p hp; exact absurd hp (List.not_mem_nil p)
  | cons q qs ih =>
    intro s p hp hhit
    rcases List.mem_cons.mp hp with rfl | hp'
    · have hmem : mkPatRec w n h ∈ (phonemeStep w s p).1.indian_english_patterns :=
        processPhoneme_hit_mem hhit
      exact (foldl_phonemeStep_patterns_extend w qs (phonemeStep w s p)).subset hmem
    · exact ih (phonemeStep w s q) p hp' hhit

/-- A scan hit on any phoneme of any word lands its record in the raw
(pre-deduplication) pattern list of the classifier. -/
theorem foldl_processWord_hit_mem {c n h : String} :
    ∀ (ws : List WordDetail) (acc : Insights) (w : WordDetail) (p : PhonemeDetail),
      w ∈ ws → p ∈ w.phonemes → findPatternHit p.phoneme p.nbest = some (c, n, h) →
      mkPatRec w.word n h ∈ (ws.foldl processWord acc).indian_english_patterns := by
  intro ws
  induction ws with
  | nil => intro acc w p hw; exact absurd hw (List.not_mem_nil w)
  | cons v vs ih =>
    intro acc w p hw hp hhit
    rcases List.mem_cons.mp hw with rfl | hw'
    · have hmem : mkPatRec w.word n h ∈ (processWord acc w).indian_english_patterns := by
        unfold processWord
        refine (consonantDropStep_patterns_extend w.word _).subset ?_
        exact foldl_phonemeStep_hit_mem w.phonemes (wordLevelStep acc w, []) p hp hhit
      exact (foldl_processWord_patterns_extend vs (processWord acc w)).subset hmem
    · exact ih (processWord acc v) w p hw' hp hhit

/-- On a scan hit the phoneme step appends exactly the hit's record. -/
theorem processPhoneme_patterns_eq_some {w : String} {acc : Insights} {p : PhonemeDetail}
    {c n h : String} (hhit : findPatternHit p.phoneme p.nbest = some (c, n, h)) :
    (processPhoneme w acc p).1.indian_english_patterns =
      acc.indian_english_patterns ++ [mkPatRec w n h] := by
  unfold processPhoneme
  rw [hhit]

/-- With no scan hit the phoneme step leaves the pattern list alone. -/
theorem processPhoneme_patterns_eq_none {w : String} {acc : Insights} {p : PhonemeDetail}
    (hhit : findPatternHit p.phoneme p.nbest = Option.none) :
    (processPhoneme w acc p).1.indian_english_patterns = acc.indian_english_patterns := by
  unfold processPhoneme
  rw [hhit]
  show (if ¬ p.is_correct = true then (addMinorDedup acc w p.accuracy_score, p)
    else if p.accuracy_score < 82 then (addMinorDedup acc w p.accuracy_score, p)
    else (acc, p)).1.indian_english_patterns = acc.indian_english_patterns
  split
  · exact addMinorDedup_patterns acc w p.accuracy_score
  · split
    · exact addMinorDedup_patterns acc w p.accuracy_score
    · rfl

/-- The phoneme step emits only well-shaped records. -/
theorem processPhoneme_goodPat {w : String} {acc : Insights} {p : PhonemeDetail}
    (hacc : ∀ r ∈ acc.indian_english_patterns, goodPat r) :
    ∀ r ∈ (processPhoneme w acc p).1.indian_english_patterns, goodPat r := by
  cases hhit : findPatternHit p.phoneme p.nbest with
  | some v =>
    obtain ⟨c, n, h⟩ := v
    intro r hr
    rw [processPhoneme_patterns_eq_some hhit] at hr
    rcases List.mem_append.mp hr with hr' | hr'
    · exact hacc r hr'
    · rcases List.mem_singleton.mp hr' with rfl
      refine ⟨w, n, h, rfl, ?_⟩
      exact patternMapGet_names (findPatternHit_sound p.nbest hhit)
  | none =>
    intro r hr
    rw [processPhoneme_patterns_eq_none hhit] at hr
    exact hacc r hr

/-- The phoneme loop emits only well-shaped records. -/
theorem foldl_phonemeStep_goodPat {w : String} :
    ∀ (ps : List PhonemeDetail) (s : Insights × List PhonemeDetail),
      (∀ r ∈ s.1.indian_english_patterns, goodPat r) →
      ∀ r ∈ (ps.foldl (phonemeStep w) s).1.indian_english_patterns, goodPat r := by
  intro ps
  induction ps with
  | nil => intro s hs; exact hs
  | cons p ps ih =>
    intro s hs
    exact ih (phonemeStep w s p) (processPhoneme_goodPat hs)

/-- The whole word loop emits only well-shaped records. -/
theorem foldl_processWord_goodPat :
    ∀ (ws : List WordDetail) (acc : Insights),
      (∀ r ∈ acc.indian_english_patterns, goodPat r) →
      ∀ r ∈ (ws.foldl processWord acc).indian_english_patterns, goodPat r := by
  intro ws
  induction ws with
  | nil => intro acc hacc; exact hacc
  | cons w ws ih =>
    intro acc hacc
    refine ih (processWord acc w) ?_
    unfold processWord
    have hword : ∀ r ∈ (wordLevelStep acc w).indian_english_patterns, goodPat r := by
      rw [wordLevelStep_patterns]; exact hacc
    have hfold := foldl_phonemeStep_goodPat (w := w.word) w.phonemes
      (wordLevelStep acc w, []) hword
    unfold consonantDropStep
    split
    · split
      · intro r hr
        rcases List.mem_append.mp hr with hr' | hr'
        · exact hfold r hr'
        · rcases List.mem_singleton.mp hr' with rfl
          exact ⟨w.word, "consonant_dropping", _, rfl, by decide⟩
      · exact hfold
    · exact hfold

/-- Every pattern record the classifier returns is well-shaped. -/
theorem classify_goodPat (words : List WordDetail) :
    ∀ r ∈ (classifyPronunciationErrors words).indian_english_patterns, goodPat r := by
  intro r hr
  have hdef : (classifyPronunciationErrors words).indian_english_patterns =
      dedupFirst patKey (words.foldl processWord ⟨[], [], []⟩).indian_english_patterns [] := rfl
  rw [hdef] at hr
  have hraw := (dedupFirst_sublist patKey _ []).subset hr
  exact foldl_processWord_goodPat words ⟨[], [], []⟩ (by simp) r hraw

/-- The two constant fields of a phoneme-pass record. -/
theorem patGetD_mkPatRec (w n h : String) :
    patGetD (mkPatRec w n h) "pattern_name" "" = n ∧
    patGetD (mkPatRec w n h) "word" "" = w := ⟨rfl, rfl⟩

/-- The dedup key of a phoneme-pass record. -/
theorem patKey_mkPatRec (w n h : String) :
    patKey (mkPatRec w n h) = n ++ "_" ++ w := rfl

/-- No classifier pattern name is a proper prefix of another. -/
theorem classifierPatternNames_prefix_free :
    ∀ a ∈ classifierPatternNames, ∀ b ∈ classifierPatternNames,
      a.data.isPrefixOf b.data = true → a = b := by
  decide

/-- `name ++ "_" ++ word` keys are injective over the classifier's
pattern names. -/
theorem nameKey_inj :
    ∀ n1 ∈ classifierPatternNames, ∀ n2 ∈ classifierPatternNames,
      ∀ w1 w2 : String, n1 ++ "_" ++ w1 = n2 ++ "_" ++ w2 → n1 = n2 ∧ w1 = w2 := by
  intro n1 h1 n2 h2 w1 w2 heq
  have hd : n1.data ++ ('_' :: w1.data) = n2.data ++ ('_' :: w2.data) := by
    have := congrArg String.data heq
    simpa [String.data_append] using this
  have hn : n1 = n2 := by
    rcases List.append_eq_append_iff.mp hd with ⟨a, ha, _⟩ | ⟨a, ha, _⟩
    · refine classifierPatternNames_prefix_free n1 h1 n2 h2 ?_
      exact List.isPrefixOf_iff_prefix.mpr ⟨a, ha.symm⟩
    · refine (classifierPatternNames_prefix_free n2 h2 n1 h1 ?_).symm
      exact List.isPrefixOf_iff_prefix.mpr ⟨a, ha.symm⟩
  subst hn
  refine ⟨rfl, ?_⟩
  have hw : w1.data = w2.data := by
    have := List.append_cancel_left hd
    exact (List.cons.injEq _ _ _ _).mp this |>.2
  exact String.ext hw

/-- Any scan hit on a phoneme of a listed word yields a surviving
deduplicated pattern record with that pattern name for that word. -/
theorem classify_emits_pattern {words : List WordDetail} {w : WordDetail}
    {p : PhonemeDetail} {c n h : String}
    (hw : w ∈ words) (hp : p ∈ w.phonemes)
    (hhit : findPatternHit p.phoneme p.nbest = some (c, n, h)) :
    ∃ r ∈ (classifyPronunciationErrors words).indian_english_patterns,
      patGetD r "pattern_name" "" = n ∧ patGetD r "word" "" = w.word := by
  have hdef : (classifyPronunciationErrors words).indian_english_patterns =
      dedupFirst patKey (words.foldl processWord ⟨[], [], []⟩).indian_english_patterns [] := rfl
  have hmem : mkPatRec w.word n h ∈
      (words.foldl processWord ⟨[], [], []⟩).indian_english_patterns :=
    foldl_processWord_hit_mem words ⟨[], [], []⟩ w p hw hp hhit
  obtain ⟨r, hr, hkey⟩ := dedupFirst_exists_key patKey _ [] _ hmem (by simp)
  have hgood : goodPat r := by
    refine classify_goodPat words r ?_
    rw [hdef]
    exact hr
  obtain ⟨w', n', h', rfl, hn'⟩ := hgood
  have hn : n ∈ classifierPatternNames :=
    patternMapGet_names (findPatternHit_sound p.nbest hhit)
  rw [patKey_mkPatRec, patKey_mkPatRec] at hkey
  obtain ⟨hne, hwe⟩ := nameKey_inj n' hn' n hn w' w.word hkey
  refine ⟨mkPatRec w' n' h', by rw [hdef]; exact hr, ?_, ?_⟩
  · rw [(patGetD_mkPatRec w' n' h').1, hne]
  · rw [(patGetD_mkPatRec w' n' h').2, hwe]

/-- **C7.** The phoneme pass scans the entire ranked candidate list in
order and emits the named pattern of the first candidate whose
`(expected, candidate)` pair has a non-null entry in the directional
pattern table, even when that candidate is not the top-ranked one; in
particular a phoneme with expected symbol `w` and `v` anywhere among
its candidates yields a `v_w_confusion` pattern record for the
containing word. -/
theorem phoneme_pass_first_nonnull_candidate_wins :
    (∀ (words : List WordDetail) (w : WordDetail) (p : PhonemeDetail)
        (pre rest : List (Option String)) (c n h : String),
      w ∈ words → p ∈ w.phonemes →
      p.nbest = pre ++ some c :: rest →
      patternMapGet (p.phoneme, c) = some (some (n, h)) →
      (∀ x ∈ pre, ∀ s : String, x = some s →
        patternMapGet (p.phoneme, s) = Option.none ∨
        patternMapGet (p.phoneme, s) = some Option.none) →
      ∃ r ∈ (classifyPronunciationErrors words).indian_english_patterns,
        patGetD r "pattern_name" "" = n ∧ patGetD r "word" "" = w.word) ∧
    (∀ (words : List WordDetail) (w : WordDetail) (p : PhonemeDetail),
      w ∈ words → p ∈ w.phonemes → p.phoneme = "w" → some "v" ∈ p.nbest →
      ∃ r ∈ (classifyPronunciationErrors words).indian_english_patterns,
        patGetD r "pattern_name" "" = "v_w_confusion" ∧
        patGetD r "word" "" = w.word) := by
  constructor
  · intro words w p pre rest c n h hw hp hnb hhit hskip
    have hfind : findPatternHit p.phoneme p.nbest = some (c, n, h) := by
      rw [hnb]
      exact findPatternHit_append pre rest hhit hskip
    exact classify_emits_pattern hw hp hfind
  · intro words w p hw hp hph hv
    obtain ⟨c, h', hfind⟩ := findPatternHit_w_v p.nbest hv
    have hfind' : findPatternHit p.phoneme p.nbest = some (c, "v_w_confusion", h') := by
      rw [hph]
      exact hfind
    exact classify_emits_pattern hw hp hfind'

/-- Witness for C7: the spec's "water" example — expected `w`, top
candidate `v` (second candidate `w`) — flags `v_w_confusion`, and the
same input witnesses the first-non-null-candidate conjunct with an
empty earlier-candidate list. -/
theorem phoneme_pass_first_nonnull_candidate_wins_witness :
    (∃ r ∈ (classifyPronunciationErrors
        [⟨"water", 95, "None", [mkPhonemeDetail "w" 95 [some "v", some "w"]]⟩]).indian_english_patterns,
      patGetD r "pattern_name" "" = "v_w_confusion" ∧ patGetD r "word" "" = "water") ∧
    (∃ r ∈ (classifyPronunciationErrors
        [⟨"water", 95, "None", [mkPhonemeDetail "w" 95 [some "v", some "w"]]⟩]).indian_english_patterns,
      patGetD r "pattern_name" "" = "v_w_confusion" ∧ patGetD r "word" "" = "water") :=
  ⟨phoneme_pass_first_nonnull_candidate_wins.1
      [⟨"water", 95, "None", [mkPhonemeDetail "w" 95 [some "v", some "w"]]⟩]
      ⟨"water", 95, "None", [mkPhonemeDetail "w" 95 [some "v", some "w"]]⟩
      (mkPhonemeDetail "w" 95 [some "v", some "w"])
      [] [some "w"] "v" "v_w_confusion"
      "Almost! 'W' sound mein lips round karo, 'v' nahi — like you're about to whistle."
      (by decide) (by decide) rfl rfl (by simp),
   phoneme_pass_first_nonnull_candidate_wins.2
      [⟨"water", 95, "None", [mkPhonemeDetail "w" 95 [some "v", some "w"]]⟩]
      ⟨"water", 95, "None", [mkPhonemeDetail "w" 95 [some "v", some "w"]]⟩
      (mkPhonemeDetail "w" 95 [some "v", some "w"])
      (by decide) (by decide) rfl (by decide)⟩

end EngApp
